import Mathlib

/-!
Shallow embedding of `src/datatransfer.js` (the append-once row migrator of
the frc-strategy repository) together with proofs about its behaviour.

Modelling conventions:

* A spreadsheet cell value is a JavaScript value as seen through the Apps
  Script `getValues`/`setValue` API: a string, a number, a boolean, `null`
  or `undefined`.  Numbers are modelled as exact rationals (`Rat`); the
  claims under study only involve numbers small enough that IEEE doubles
  are exact on them.
* A sheet is its stored cell grid, a list of rows of cells.  `getLastRow`
  and `getLastColumn` return the extent of the stored grid, which may
  overstate the true content (blank-but-formatted rows), exactly the
  overstatement the source comments on.  Reading a cell outside the grid
  yields the empty string, as `getValues` does.
* `Number(...)` string coercion is modelled for decimal literals
  (optional sign, digits, optional fraction part); exponent, hexadecimal
  and `Infinity` forms are not needed by any claim and are mapped to the
  NaN result `none` only when they contain a character outside that
  fragment, which does not affect any input exercised here.
-/

/-- A JavaScript cell value as delivered by the spreadsheet API. -/
inductive Cell where
  | str (s : String)
  | num (q : Rat)
  | boolean (b : Bool)
  | null
  | undefined
deriving DecidableEq, Repr

/-- A sheet is its stored grid of cell values. -/
structure Sheet where
  rows : List (List Cell)
deriving DecidableEq, Repr

/-- `sheet.getLastRow()`: the stored grid extent in rows. -/
def getLastRow (sh : Sheet) : Nat := sh.rows.length

/-- Maximum width of a list of rows. -/
def maxWidth : List (List Cell) → Nat
  | [] => 0
  | r :: t => max r.length (maxWidth t)

/-- `sheet.getLastColumn()`: the stored grid extent in columns. -/
def getLastColumn (sh : Sheet) : Nat := maxWidth sh.rows

/-- Read one cell (1-based row and column); cells outside the stored grid
read as the empty string, as `getValues` returns. -/
def getCell (sh : Sheet) (r c : Nat) : Cell :=
  match r, c with
  | r0 + 1, c0 + 1 => (((sh.rows[r0]?).getD [])[c0]?).getD (Cell.str "")
  | _, _ => Cell.str ""

/-- Write position `c0` (0-based) of a row, padding with empty strings. -/
def setInRow : List Cell → Nat → Cell → List Cell
  | _ :: t, 0, v => v :: t
  | [], 0, v => [v]
  | x :: t, c0 + 1, v => x :: setInRow t c0 v
  | [], c0 + 1, v => Cell.str "" :: setInRow [] c0 v

/-- Write one cell at 0-based row `r0`, column `c0`, extending the grid
with empty rows as needed. -/
def setCellRows : List (List Cell) → Nat → Nat → Cell → List (List Cell)
  | r :: t, 0, c0, v => setInRow r c0 v :: t
  | [], 0, c0, v => [setInRow [] c0 v]
  | r :: t, r0 + 1, c0, v => r :: setCellRows t r0 c0 v
  | [], r0 + 1, c0, v => [] :: setCellRows [] r0 c0 v

/-- `sheet.getRange(r, c).setValue(v)` (1-based). -/
def setCell (sh : Sheet) (r c : Nat) (v : Cell) : Sheet :=
  match r, c with
  | r0 + 1, c0 + 1 => ⟨setCellRows sh.rows r0 c0 v⟩
  | _, _ => sh

/-- Overwrite the prefix of a row with the given values, keeping the tail:
the effect of `setValues` of a one-row range starting at column 1. -/
def writeInRow : List Cell → List Cell → List Cell
  | [], row => row
  | v :: vs, [] => v :: writeInRow vs []
  | v :: vs, _ :: t => v :: writeInRow vs t

/-- Write a row of values at 0-based row `r0`, starting at column 1. -/
def writeRowRows : List (List Cell) → Nat → List Cell → List (List Cell)
  | r :: t, 0, vals => writeInRow vals r :: t
  | [], 0, vals => [writeInRow vals []]
  | r :: t, r0 + 1, vals => r :: writeRowRows t r0 vals
  | [], r0 + 1, vals => [] :: writeRowRows [] r0 vals

/-- `sheet.getRange(r, 1, 1, vals.length).setValues([vals])` (1-based row).
Apps Script would raise on a zero-width range; the model makes that
unreachable corner a write of nothing. -/
def writeRowAt (sh : Sheet) (r : Nat) (vals : List Cell) : Sheet :=
  match r with
  | r0 + 1 => ⟨writeRowRows sh.rows r0 vals⟩
  | 0 => sh

/-- `sheet.getRange(r, 1, 1, cols).getValues()[0]`: one row padded to
`cols` cells. -/
def readRow (sh : Sheet) (r cols : Nat) : List Cell :=
  (List.range cols).map (fun j => getCell sh r (j + 1))

/-- `sheet.getRange(1, 1, nrows, cols).getValues()`: the grid padded to a
`nrows` by `cols` rectangle. -/
def readGrid (sh : Sheet) (nrows cols : Nat) : List (List Cell) :=
  (List.range nrows).map (fun i => readRow sh (i + 1) cols)

-- ── configuration constants of datatransfer.js ──────────────────────────

/-- A column reference: a number or a string (`SA_TEAM_COLUMN` shapes). -/
inductive ColRef where
  | num (n : Int)
  | str (s : String)
deriving DecidableEq, Repr

/-- `const SA_TEAM_COLUMN = "A"`. -/
def SA_TEAM_COLUMN : ColRef := ColRef.str "A"

/-- `const SA_ROWS_GAP = 5`. -/
def SA_ROWS_GAP : Nat := 5

/-- `const SA_TRACKING_COL = "SA_PASTED"`. -/
def SA_TRACKING_COL : String := "SA_PASTED"

-- ── utilities of datatransfer.js ────────────────────────────────────────

/-- The JS check `cell !== "" && cell !== null && cell !== undefined`
inside `findLastContentRow`. -/
def cellNonEmpty (c : Cell) : Bool :=
  decide (c ≠ Cell.str "" ∧ c ≠ Cell.null ∧ c ≠ Cell.undefined)

/-- `data[r].some(cell => ...)` of the content scan. -/
def rowHasContent (row : List Cell) : Bool := row.any cellNonEmpty

/-- The bottom-up scan of `findLastContentRow`: 1-based index of the last
row with content, 0 when none has any. -/
def lastContentAux : List (List Cell) → Nat
  | [] => 0
  | row :: rest =>
    let k := lastContentAux rest
    if k = 0 then (if rowHasContent row then 1 else 0) else k + 1

/-- `findLastContentRow(sheet)` of datatransfer.js: reads the grid, then
scans from the bottom up for the last row containing any non-empty cell. -/
def findLastContentRow (sheet : Sheet) : Nat :=
  let lastRow := getLastRow sheet
  if lastRow = 0 then 0
  else lastContentAux (readGrid sheet lastRow (max (getLastColumn sheet) 1))

/-- The header search loop of `getOrCreateTrackingColumn`: first 0-based
index whose cell is the string `SA_PASTED`. -/
def headerFindSA : List Cell → Option Nat
  | [] => none
  | c :: rest =>
    if c = Cell.str SA_TRACKING_COL then some 0
    else (headerFindSA rest).map (· + 1)

/-- `getOrCreateTrackingColumn(sheet, currentLastCol)`: find the tracking
header in row 1, else create it one column past `currentLastCol`.  The
return value pairs the 1-based tracking column index with the (possibly
mutated) sheet; the font and note calls of the source do not change cell
values and are omitted. -/
def getOrCreateTrackingColumn (sheet : Sheet) (currentLastCol : Nat) : Nat × Sheet :=
  let headerRow := readRow sheet 1 currentLastCol
  match headerFindSA headerRow with
  | some i => (i + 1, sheet)
  | none =>
    let newCol := currentLastCol + 1
    (newCol, setCell sheet 1 newCol (Cell.str SA_TRACKING_COL))

/-- Accumulate a digit list into a natural number (`parseInt` on a pure
digit string, and the integer part of `Number`). -/
def digitsToNat (l : List Char) : Nat :=
  l.foldl (fun a c => a * 10 + (c.toNat - 48)) 0

/-- An ASCII whitespace character, the common fragment of what the JS
`trim` and `Number` coercions strip. -/
def isWsChar (c : Char) : Bool :=
  decide (c = ' ' ∨ c = '\t' ∨ c = '\n' ∨ c = '\r')

/-- `s.trim()` of JS on the character list (ASCII whitespace fragment). -/
def trimChars (l : List Char) : List Char :=
  ((l.dropWhile isWsChar).reverse.dropWhile isWsChar).reverse

/-- `toUpperCase()` of JS on one character (ASCII fragment). -/
def jsToUpperChar (c : Char) : Char :=
  if 'a' ≤ c ∧ c ≤ 'z' then Char.ofNat (c.toNat - 32) else c

/-- The letter loop of `resolveColumn`: base-26 accumulation, `null` on
the first character outside `A`..`Z`. -/
def colLetterValue : List Char → Int → Option Int
  | [], acc => some acc
  | c :: rest, acc =>
    let code : Int := (c.toNat : Int) - 64
    if code < 1 ∨ code > 26 then none
    else colLetterValue rest (acc * 26 + code)

/-- `resolveColumn(ref)` of datatransfer.js.  A number is returned when
positive, else `null`; the empty string is `null`; otherwise the trimmed
upper-cased string is parsed as digits (`/^\d+$/` then `parseInt`) or
fed to the letter loop.  A whitespace-only string therefore reaches the
letter loop with no characters and yields `0`. -/
def resolveColumn : ColRef → Option Int
  | ColRef.num n => if n > 0 then some n else none
  | ColRef.str s =>
    if s = "" then none
    else
      let t := (trimChars s.toList).map jsToUpperChar
      if t ≠ [] ∧ t.all Char.isDigit then some (digitsToNat t)
      else colLetterValue t 0

/-- A `resolveColumn` result the caller `if (!teamColIndex)` treats as
invalid: the JS-falsy results `null` and `0`. -/
def isFalsyCol : Option Int → Bool
  | none => true
  | some n => n == 0

/-- `Number(s)` on a string, for the decimal-literal fragment: trim, empty
gives `0`, optional sign, digits with at most one point; anything else is
NaN (`none`). -/
def jsStrToNumber (s : String) : Option Rat :=
  let t := trimChars s.toList
  if t = [] then some 0
  else
    let body : List Char :=
      match t with
      | '-' :: rest => rest
      | '+' :: rest => rest
      | _ => t
    let neg : Bool :=
      match t with
      | '-' :: _ => true
      | _ => false
    let ip := body.takeWhile (fun c => c ≠ '.')
    let rest := body.dropWhile (fun c => c ≠ '.')
    let mag : Option Rat :=
      match rest with
      | [] => if ip ≠ [] ∧ ip.all Char.isDigit then some (digitsToNat ip : Rat) else none
      | _ :: fp =>
        if (ip ≠ [] ∨ fp ≠ []) ∧ ip.all Char.isDigit ∧ fp.all Char.isDigit then
          some (mkRat (digitsToNat ip * 10 ^ fp.length + digitsToNat fp) (10 ^ fp.length))
        else none
    mag.map (fun q => if neg then -q else q)

/-- `Number(rawTeam)` on a cell value; `none` is NaN. -/
def jsNumber : Cell → Option Rat
  | Cell.num q => some q
  | Cell.boolean b => some (if b then 1 else 0)
  | Cell.null => some 0
  | Cell.undefined => none
  | Cell.str s => jsStrToNumber s

-- ── driver state ────────────────────────────────────────────────────────

/-- One entry of the per-row log built by the driver. -/
inductive LogEntry where
  | warned (rowNum : Nat) (raw : Cell)
  | created (team : Rat)
  | pasted (team : Rat) (rowNum : Nat) (line : Nat)
deriving DecidableEq, Repr

/-- The summary counts and log of one driver run. -/
structure RunResult where
  pushed : Nat
  skipped : Nat
  newSheets : Nat
  log : List LogEntry
deriving DecidableEq, Repr

/-- The whole spreadsheet: the source tab `SA_DATA_MASTER` and the
per-team destination tabs, keyed by team number. -/
structure SpreadState where
  src : Sheet
  teams : List (Rat × Sheet)
deriving DecidableEq, Repr

/-- `ss.getSheetByName(teamNum.toString())` on the destination tabs. -/
def lookupTeam : List (Rat × Sheet) → Rat → Option Sheet
  | [], _ => none
  | (k0, sh) :: rest, k => if k0 = k then some sh else lookupTeam rest k

/-- Store the (new contents of the) destination tab for a team, inserting
the tab when absent. -/
def setTeam : List (Rat × Sheet) → Rat → Sheet → List (Rat × Sheet)
  | [], k, sh => [(k, sh)]
  | (k0, sh0) :: rest, k, sh =>
    if k0 = k then (k0, sh) :: rest else (k0, sh0) :: setTeam rest k sh

/-- The mutable state threaded through the migration loop: the source
sheet, the destination tabs and the counters and log of the summary. -/
structure LoopState where
  src : Sheet
  teams : List (Rat × Sheet)
  pushed : Nat
  skipped : Nat
  newSheets : Nat
  log : List LogEntry
deriving DecidableEq, Repr

/-- The paste-and-mark tail of one loop iteration (lines 105-120 of
datatransfer.js): compute the paste row from the bottom-up content scan,
paste the row without its tracking cell, mark the source row, bump the
pushed counter and log the paste. -/
def pushRow (tk r : Nat) (row : List Cell) (ls : LoopState) (teamNum : Rat)
    (teamSheet : Sheet) (teams0 : List (Rat × Sheet)) (ns0 : Nat)
    (log0 : List LogEntry) : LoopState :=
  let pasteRow := findLastContentRow teamSheet + SA_ROWS_GAP + 1
  let dataToPaste := row.take (tk - 1)
  let teamSheet2 := writeRowAt teamSheet pasteRow dataToPaste
  { src := setCell ls.src (r + 1) tk (Cell.str SA_TRACKING_COL)
    teams := setTeam teams0 teamNum teamSheet2
    pushed := ls.pushed + 1
    skipped := ls.skipped
    newSheets := ns0
    log := log0 ++ [LogEntry.pasted teamNum (r + 1) pasteRow] }

/-- One iteration of the migration loop of `pushSADataToTeamSheets` for
the snapshot row with 0-based index `r` (sheet row `r + 1`). -/
def processRow (tc tk r : Nat) (row : List Cell) (ls : LoopState) : LoopState :=
  let trackVal := (row[tk - 1]?).getD Cell.undefined
  if trackVal = Cell.str SA_TRACKING_COL ∨ trackVal = Cell.boolean true ∨
      trackVal = Cell.str "TRUE" then
    { ls with skipped := ls.skipped + 1 }
  else
    let rawTeam := (row[tc - 1]?).getD Cell.undefined
    if rawTeam = Cell.str "" ∨ rawTeam = Cell.null ∨ rawTeam = Cell.undefined then ls
    else
      match jsNumber rawTeam with
      | none => { ls with log := ls.log ++ [LogEntry.warned (r + 1) rawTeam] }
      | some teamNum =>
        if teamNum ≤ 0 then { ls with log := ls.log ++ [LogEntry.warned (r + 1) rawTeam] }
        else
          match lookupTeam ls.teams teamNum with
          | some sh => pushRow tk r row ls teamNum sh ls.teams ls.newSheets ls.log
          | none =>
            pushRow tk r row ls teamNum (Sheet.mk []) ls.teams (ls.newSheets + 1)
              (ls.log ++ [LogEntry.created teamNum])

/-- The `for (let r = 1; r < allData.length; r++)` loop, processing the
listed snapshot rows, the first carrying 0-based index `r0`. -/
def runRows (tc tk : Nat) : Nat → List (List Cell) → LoopState → LoopState
  | _, [], ls => ls
  | r, row :: rest, ls => runRows tc tk (r + 1) rest (processRow tc tk r row ls)

/-- Whether one snapshot row reaches the paste branch of the loop. -/
def rowPushes (tc tk : Nat) (row : List Cell) : Bool :=
  let trackVal := (row[tk - 1]?).getD Cell.undefined
  if trackVal = Cell.str SA_TRACKING_COL ∨ trackVal = Cell.boolean true ∨
      trackVal = Cell.str "TRUE" then false
  else
    let rawTeam := (row[tc - 1]?).getD Cell.undefined
    if rawTeam = Cell.str "" ∨ rawTeam = Cell.null ∨ rawTeam = Cell.undefined then false
    else
      match jsNumber rawTeam with
      | none => false
      | some teamNum => decide (0 < teamNum)

/-- `pushSADataToTeamSheets()` of datatransfer.js.  The source tab always
exists in the model; `none` stands for the early alert returns (no data
rows, or an invalid `SA_TEAM_COLUMN`).  `Logger.log`, `flush` and the
alert of the summary do not change sheet state. -/
def pushSADataToTeamSheets (st : SpreadState) : SpreadState × Option RunResult :=
  let lastCol := getLastColumn st.src
  let lastRow := getLastRow st.src
  if lastRow < 2 then (st, none)
  else
    match resolveColumn SA_TEAM_COLUMN with
    | none => (st, none)
    | some n =>
      if n = 0 then (st, none)
      else
        let teamColIndex := n.toNat
        let pr := getOrCreateTrackingColumn st.src lastCol
        let allData := readGrid pr.2 lastRow pr.1
        let f := runRows teamColIndex pr.1 1 (allData.drop 1)
          ⟨pr.2, st.teams, 0, 0, 0, []⟩
        (⟨f.src, f.teams⟩, some ⟨f.pushed, f.skipped, f.newSheets, f.log⟩)

/-- `range.clearContent()` on a one-column range: clear `count` cells of
column `col` starting at row `fromRow`. -/
def clearColumnCells (sh : Sheet) (col fromRow : Nat) : Nat → Sheet
  | 0 => sh
  | n + 1 => clearColumnCells (setCell sh fromRow col (Cell.str "")) col (fromRow + 1) n

/-- `pushSADataToTeamSheets_FORCE()`: clear every data-row tracking cell,
then run the normal driver. -/
def pushSADataToTeamSheets_FORCE (st : SpreadState) : SpreadState × Option RunResult :=
  let lastRow := getLastRow st.src
  let pr := getOrCreateTrackingColumn st.src (getLastColumn st.src)
  let src2 := if 1 < lastRow then clearColumnCells pr.2 pr.1 2 (lastRow - 1) else pr.2
  pushSADataToTeamSheets ⟨src2, st.teams⟩

/-- An execution of `pushSADataToTeamSheets` that raises after fully
processing the first `k` data rows and before the destination paste of
data row `k + 1`.  All per-row persistent effects of an iteration (the
paste and the tracking write) come after the cursor computation, so the
state such a failed execution leaves behind is exactly the state after
`k` iterations; the optional sheet creation of the failed iteration does
not touch the source sheet or any cell value. -/
def pushSADataInterrupted (st : SpreadState) (k : Nat) : SpreadState :=
  let lastCol := getLastColumn st.src
  let lastRow := getLastRow st.src
  if lastRow < 2 then st
  else
    match resolveColumn SA_TEAM_COLUMN with
    | none => st
    | some n =>
      if n = 0 then st
      else
        let teamColIndex := n.toNat
        let pr := getOrCreateTrackingColumn st.src lastCol
        let allData := readGrid pr.2 lastRow pr.1
        let f := runRows teamColIndex pr.1 1 ((allData.drop 1).take k)
          ⟨pr.2, st.teams, 0, 0, 0, []⟩
        ⟨f.src, f.teams⟩

-- ════════════════════════════════════════════════════════════════════════
-- Primitive lemmas about the sheet operations
-- ════════════════════════════════════════════════════════════════════════

theorem setInRow_get (v : Cell) :
    ∀ (c0 : Nat) (row : List Cell) (c1 : Nat),
      ((setInRow row c0 v)[c1]?).getD (Cell.str "") =
        if c1 = c0 then v else (row[c1]?).getD (Cell.str "") := by
  intro c0
  induction c0 with
  | zero => intro row c1; cases row <;> cases c1 <;> simp [setInRow]
  | succ c0 ih => intro row c1; cases row <;> cases c1 <;> simp [setInRow, ih]

theorem setInRow_length (v : Cell) :
    ∀ (c0 : Nat) (row : List Cell),
      (setInRow row c0 v).length = max row.length (c0 + 1) := by
  intro c0
  induction c0 with
  | zero => intro row; cases row <;> simp [setInRow]
  | succ c0 ih => intro row; cases row <;> simp [setInRow, ih] <;> omega

theorem setCellRows_get (v : Cell) :
    ∀ (r0 : Nat) (rows : List (List Cell)) (r1 c0 : Nat),
      ((setCellRows rows r0 c0 v)[r1]?).getD [] =
        if r1 = r0 then setInRow ((rows[r1]?).getD []) c0 v
        else (rows[r1]?).getD [] := by
  intro r0
  induction r0 with
  | zero => intro rows r1 c0; cases rows <;> cases r1 <;> simp [setCellRows]
  | succ r0 ih => intro rows r1 c0; cases rows <;> cases r1 <;> simp [setCellRows, ih]

theorem setCellRows_length (v : Cell) :
    ∀ (r0 : Nat) (rows : List (List Cell)) (c0 : Nat),
      (setCellRows rows r0 c0 v).length = max rows.length (r0 + 1) := by
  intro r0
  induction r0 with
  | zero => intro rows c0; cases rows <;> simp [setCellRows]
  | succ r0 ih => intro rows c0; cases rows <;> simp [setCellRows, ih] <;> omega

theorem maxWidth_setCellRows (v : Cell) :
    ∀ (r0 : Nat) (rows : List (List Cell)) (c0 : Nat),
      maxWidth (setCellRows rows r0 c0 v) = max (maxWidth rows) (c0 + 1) := by
  intro r0
  induction r0 with
  | zero =>
    intro rows c0
    cases rows <;> simp [setCellRows, maxWidth, setInRow_length] <;> omega
  | succ r0 ih =>
    intro rows c0
    cases rows <;> simp [setCellRows, maxWidth, ih] <;> omega

theorem getCell_setCell (sh : Sheet) (r0 c0 r1 c1 : Nat) (v : Cell) :
    getCell (setCell sh (r0 + 1) (c0 + 1) v) (r1 + 1) (c1 + 1) =
      if r1 = r0 ∧ c1 = c0 then v else getCell sh (r1 + 1) (c1 + 1) := by
  by_cases hr : r1 = r0 <;> by_cases hc : c1 = c0 <;>
    simp [getCell, setCell, setCellRows_get, setInRow_get, hr, hc]

theorem getCell_setCell_self (sh : Sheet) (r0 c0 : Nat) (v : Cell) :
    getCell (setCell sh (r0 + 1) (c0 + 1) v) (r0 + 1) (c0 + 1) = v := by
  simp [getCell_setCell]

theorem getCell_setCell_ne (sh : Sheet) (r0 c0 r1 c1 : Nat) (v : Cell)
    (h : ¬(r1 = r0 ∧ c1 = c0)) :
    getCell (setCell sh (r0 + 1) (c0 + 1) v) (r1 + 1) (c1 + 1) =
      getCell sh (r1 + 1) (c1 + 1) := by
  simp [getCell_setCell, h]

theorem getLastRow_setCell (sh : Sheet) (r0 c0 : Nat) (v : Cell) :
    getLastRow (setCell sh (r0 + 1) (c0 + 1) v) = max (getLastRow sh) (r0 + 1) := by
  simp [getLastRow, setCell, setCellRows_length]

theorem getLastColumn_setCell (sh : Sheet) (r0 c0 : Nat) (v : Cell) :
    getLastColumn (setCell sh (r0 + 1) (c0 + 1) v) = max (getLastColumn sh) (c0 + 1) := by
  simp [getLastColumn, setCell, maxWidth_setCellRows]

theorem writeInRow_get (d : Cell) :
    ∀ (vals row : List Cell) (c : Nat),
      ((writeInRow vals row)[c]?).getD d =
        if c < vals.length then (vals[c]?).getD d else (row[c]?).getD d := by
  intro vals
  induction vals with
  | nil => intro row c; simp [writeInRow]
  | cons v vs ih =>
    intro row c
    cases row <;> cases c <;> simp [writeInRow, ih] <;> omega

theorem writeInRow_length :
    ∀ (vals row : List Cell),
      (writeInRow vals row).length = max vals.length row.length := by
  intro vals
  induction vals with
  | nil => intro row; simp [writeInRow]
  | cons v vs ih => intro row; cases row <;> simp [writeInRow, ih] <;> omega

theorem writeRowRows_get :
    ∀ (r0 : Nat) (rows : List (List Cell)) (r1 : Nat) (vals : List Cell),
      ((writeRowRows rows r0 vals)[r1]?).getD [] =
        if r1 = r0 then writeInRow vals ((rows[r1]?).getD [])
        else (rows[r1]?).getD [] := by
  intro r0
  induction r0 with
  | zero => intro rows r1 vals; cases rows <;> cases r1 <;> simp [writeRowRows]
  | succ r0 ih => intro rows r1 vals; cases rows <;> cases r1 <;> simp [writeRowRows, ih]

theorem writeRowRows_length :
    ∀ (r0 : Nat) (rows : List (List Cell)) (vals : List Cell),
      (writeRowRows rows r0 vals).length = max rows.length (r0 + 1) := by
  intro r0
  induction r0 with
  | zero => intro rows vals; cases rows <;> simp [writeRowRows]
  | succ r0 ih => intro rows vals; cases rows <;> simp [writeRowRows, ih] <;> omega

theorem getCell_writeRowAt (sh : Sheet) (r0 r1 c0 : Nat) (vals : List Cell) :
    getCell (writeRowAt sh (r0 + 1) vals) (r1 + 1) (c0 + 1) =
      if r1 = r0 ∧ c0 < vals.length then (vals[c0]?).getD (Cell.str "")
      else getCell sh (r1 + 1) (c0 + 1) := by
  by_cases hr : r1 = r0 <;> by_cases hc : c0 < vals.length <;>
    simp [getCell, writeRowAt, writeRowRows_get, writeInRow_get, hr, hc]

theorem width_le_maxWidth :
    ∀ (rows : List (List Cell)) (i : Nat),
      ((rows[i]?).getD []).length ≤ maxWidth rows := by
  intro rows
  induction rows with
  | nil => intro i; simp
  | cons r t ih =>
    intro i
    cases i with
    | zero => simp [maxWidth]
    | succ i => simpa [maxWidth] using Nat.le_trans (ih i) (Nat.le_max_right _ _)

theorem getCell_of_col_gt (sh : Sheet) (r1 c0 : Nat)
    (h : getLastColumn sh ≤ c0) :
    getCell sh (r1 + 1) (c0 + 1) = Cell.str "" := by
  have hw : ((sh.rows[r1]?).getD []).length ≤ c0 :=
    Nat.le_trans (width_le_maxWidth sh.rows r1) h
  simp [getCell, List.getElem?_eq_none hw]

theorem getCell_of_row_gt (sh : Sheet) (r1 c : Nat)
    (h : getLastRow sh ≤ r1) :
    getCell sh (r1 + 1) c = Cell.str "" := by
  cases c with
  | zero => simp [getCell]
  | succ c0 => simp [getCell, List.getElem?_eq_none (h : sh.rows.length ≤ r1)]

-- readRow / readGrid

theorem readRow_length (sh : Sheet) (r cols : Nat) :
    (readRow sh r cols).length = cols := by
  simp [readRow]

theorem readGrid_length (sh : Sheet) (n cols : Nat) :
    (readGrid sh n cols).length = n := by
  simp [readGrid]

theorem readRow_get (sh : Sheet) (r cols j : Nat) (h : j < cols) :
    (readRow sh r cols)[j]? = some (getCell sh r (j + 1)) := by
  simp [readRow, List.getElem?_map, List.getElem?_range h]

theorem readGrid_get (sh : Sheet) (n cols i : Nat) (h : i < n) :
    (readGrid sh n cols)[i]? = some (readRow sh (i + 1) cols) := by
  simp [readGrid, List.getElem?_map, List.getElem?_range h]

theorem readRow_succ_cols (sh : Sheet) (r n : Nat) :
    readRow sh r (n + 1) = readRow sh r n ++ [getCell sh r (n + 1)] := by
  simp [readRow, List.range_succ]

theorem readRow_congr (a b : Sheet) (r cols : Nat)
    (h : ∀ j, j < cols → getCell a r (j + 1) = getCell b r (j + 1)) :
    readRow a r cols = readRow b r cols := by
  apply List.map_congr_left
  intro j hj
  exact h j (List.mem_range.mp hj)

-- ── content scan characterization ───────────────────────────────────────

theorem lastContentAux_le : ∀ l : List (List Cell), lastContentAux l ≤ l.length := by
  intro l
  induction l with
  | nil => simp [lastContentAux]
  | cons row rest ih =>
    simp only [lastContentAux, List.length_cons]
    by_cases h : lastContentAux rest = 0 <;> by_cases h2 : rowHasContent row <;>
      simp [h, h2] <;> omega

theorem lastContentAux_after :
    ∀ (l : List (List Cell)) (k : Nat), lastContentAux l ≤ k →
      rowHasContent ((l[k]?).getD []) = false := by
  intro l
  induction l with
  | nil => intro k _; simp [rowHasContent]
  | cons row rest ih =>
    intro k hk
    have hcons : lastContentAux (row :: rest) =
        (if lastContentAux rest = 0 then (if rowHasContent row then 1 else 0)
         else lastContentAux rest + 1) := rfl
    by_cases h : lastContentAux rest = 0
    · by_cases h2 : rowHasContent row
      · rw [hcons, if_pos h, if_pos h2] at hk
        obtain ⟨k1, rfl⟩ : ∃ k1, k = k1 + 1 := ⟨k - 1, by omega⟩
        simpa using ih k1 (by omega)
      · cases k with
        | zero =>
          cases hb : rowHasContent row with
          | true => exact absurd hb h2
          | false => simpa using hb
        | succ k1 => simpa using ih k1 (by omega)
    · rw [hcons, if_neg h] at hk
      obtain ⟨k1, rfl⟩ : ∃ k1, k = k1 + 1 := ⟨k - 1, by omega⟩
      simpa using ih k1 (by omega)

theorem lastContentAux_self :
    ∀ l : List (List Cell), 0 < lastContentAux l →
      rowHasContent ((l[lastContentAux l - 1]?).getD []) = true := by
  intro l
  induction l with
  | nil => intro h; simp [lastContentAux] at h
  | cons row rest ih =>
    intro hpos
    have hcons : lastContentAux (row :: rest) =
        (if lastContentAux rest = 0 then (if rowHasContent row then 1 else 0)
         else lastContentAux rest + 1) := rfl
    by_cases h : lastContentAux rest = 0
    · by_cases h2 : rowHasContent row
      · rw [hcons, if_pos h, if_pos h2]
        simpa using h2
      · rw [hcons, if_pos h, if_neg h2] at hpos
        exact absurd hpos (by omega)
    · rw [hcons, if_neg h]
      have hr : 0 < lastContentAux rest := Nat.pos_of_ne_zero h
      have hx : lastContentAux rest + 1 - 1 = (lastContentAux rest - 1) + 1 := by omega
      rw [hx]
      simpa using ih hr

/-- Rows strictly below the scan result have no non-empty cell. -/
theorem findLastContentRow_after (sh : Sheet) (r c : Nat)
    (h : findLastContentRow sh < r) :
    cellNonEmpty (getCell sh r c) = false := by
  obtain ⟨r1, rfl⟩ : ∃ r1, r = r1 + 1 := ⟨r - 1, by omega⟩
  cases c with
  | zero => simp [getCell, cellNonEmpty]
  | succ c0 =>
    have hdef : findLastContentRow sh =
        (if getLastRow sh = 0 then 0
         else lastContentAux (readGrid sh (getLastRow sh) (max (getLastColumn sh) 1))) := rfl
    by_cases hz : getLastRow sh = 0
    · rw [getCell_of_row_gt sh r1 _ (by omega)]
      simp [cellNonEmpty]
    · rw [hdef, if_neg hz] at h
      by_cases hrow : getLastRow sh ≤ r1
      · rw [getCell_of_row_gt sh r1 _ hrow]; simp [cellNonEmpty]
      · have hlt : r1 < getLastRow sh := by omega
        have hgrid := lastContentAux_after
          (readGrid sh (getLastRow sh) (max (getLastColumn sh) 1)) r1 (by omega)
        rw [readGrid_get sh _ _ r1 hlt] at hgrid
        simp only [Option.getD_some, rowHasContent] at hgrid
        by_cases hc : c0 < max (getLastColumn sh) 1
        · have hmem : getCell sh (r1 + 1) (c0 + 1) ∈
              readRow sh (r1 + 1) (max (getLastColumn sh) 1) := by
            simp only [readRow]
            exact List.mem_map_of_mem _ (List.mem_range.mpr hc)
          have hfalse := List.any_eq_false.mp hgrid _ hmem
          simpa using hfalse
        · have hge : getLastColumn sh ≤ c0 := by omega
          rw [getCell_of_col_gt sh r1 c0 hge]
          simp [cellNonEmpty]

/-- A positive scan result points at a row with at least one non-empty
cell. -/
theorem findLastContentRow_self (sh : Sheet)
    (h : 0 < findLastContentRow sh) :
    ∃ c, cellNonEmpty (getCell sh (findLastContentRow sh) c) = true := by
  have hdef : findLastContentRow sh =
      (if getLastRow sh = 0 then 0
       else lastContentAux (readGrid sh (getLastRow sh) (max (getLastColumn sh) 1))) := rfl
  by_cases hz : getLastRow sh = 0
  · rw [hdef, if_pos hz] at h
    exact absurd h (by omega)
  · rw [hdef, if_neg hz] at h ⊢
    set cols := max (getLastColumn sh) 1 with hcols
    set n := lastContentAux (readGrid sh (getLastRow sh) cols) with hn
    have hle : n ≤ getLastRow sh := by
      have := lastContentAux_le (readGrid sh (getLastRow sh) cols)
      rwa [readGrid_length] at this
    have hself := lastContentAux_self (readGrid sh (getLastRow sh) cols) h
    rw [readGrid_get sh _ cols (n - 1) (by omega)] at hself
    simp only [Option.getD_some, rowHasContent] at hself
    obtain ⟨x, hxmem, hx⟩ := List.any_eq_true.mp hself
    simp only [readRow, List.mem_map] at hxmem
    obtain ⟨j, hj, rfl⟩ := hxmem
    refine ⟨j + 1, ?_⟩
    have hx1 : n - 1 + 1 = n := by omega
    rw [hx1] at hx
    exact hx

theorem findLastContentRow_le (sh : Sheet) :
    findLastContentRow sh ≤ getLastRow sh := by
  have hdef : findLastContentRow sh =
      (if getLastRow sh = 0 then 0
       else lastContentAux (readGrid sh (getLastRow sh) (max (getLastColumn sh) 1))) := rfl
  by_cases hz : getLastRow sh = 0
  · rw [hdef, if_pos hz]; omega
  · rw [hdef, if_neg hz]
    have := lastContentAux_le (readGrid sh (getLastRow sh) (max (getLastColumn sh) 1))
    rwa [readGrid_length] at this

-- ── header search lemmas ────────────────────────────────────────────────

theorem headerFindSA_lt :
    ∀ l : List Cell, ∀ i, headerFindSA l = some i → i < l.length := by
  intro l
  induction l with
  | nil => intro i h; simp [headerFindSA] at h
  | cons c rest ih =>
    intro i h
    have hcons : headerFindSA (c :: rest) =
        (if c = Cell.str SA_TRACKING_COL then some 0
         else (headerFindSA rest).map (· + 1)) := rfl
    by_cases hc : c = Cell.str SA_TRACKING_COL
    · rw [hcons, if_pos hc] at h
      have hi : i = 0 := by simpa using h.symm
      simp only [List.length_cons]
      omega
    · rw [hcons, if_neg hc] at h
      cases hr : headerFindSA rest with
      | none => rw [hr] at h; simp at h
      | some j =>
        rw [hr] at h
        have hij : i = j + 1 := by simpa using h.symm
        have := ih j hr
        simp only [List.length_cons]
        omega

theorem headerFindSA_append_of_none (l : List Cell) (a : Cell)
    (h : headerFindSA l = none) :
    headerFindSA (l ++ [a]) =
      if a = Cell.str SA_TRACKING_COL then some l.length else none := by
  induction l with
  | nil =>
    have hcons : headerFindSA ([] ++ [a]) =
        (if a = Cell.str SA_TRACKING_COL then some 0
         else (headerFindSA []).map (· + 1)) := rfl
    rw [hcons]
    by_cases ha : a = Cell.str SA_TRACKING_COL
    · rw [if_pos ha, if_pos ha]; rfl
    · rw [if_neg ha, if_neg ha]; rfl
  | cons c rest ih =>
    have hcons1 : headerFindSA (c :: rest) =
        (if c = Cell.str SA_TRACKING_COL then some 0
         else (headerFindSA rest).map (· + 1)) := rfl
    have hcons2 : headerFindSA (c :: (rest ++ [a])) =
        (if c = Cell.str SA_TRACKING_COL then some 0
         else (headerFindSA (rest ++ [a])).map (· + 1)) := rfl
    rw [hcons1] at h
    by_cases hc : c = Cell.str SA_TRACKING_COL
    · rw [if_pos hc] at h; simp at h
    · rw [if_neg hc] at h
      have hrest : headerFindSA rest = none := by
        cases hr : headerFindSA rest with
        | none => rfl
        | some j => rw [hr] at h; simp at h
      rw [List.cons_append, hcons2, if_neg hc, ih hrest]
      by_cases ha : a = Cell.str SA_TRACKING_COL
      · rw [if_pos ha, if_pos ha]
        simp
      · rw [if_neg ha, if_neg ha]
        rfl

-- ── destination map lemmas ──────────────────────────────────────────────

theorem lookupTeam_setTeam_self :
    ∀ (t : List (Rat × Sheet)) (k : Rat) (sh : Sheet),
      lookupTeam (setTeam t k sh) k = some sh := by
  intro t
  induction t with
  | nil => intro k sh; simp [setTeam, lookupTeam]
  | cons p rest ih =>
    intro k sh
    obtain ⟨k0, sh0⟩ := p
    by_cases hk : k0 = k
    · simp [setTeam, lookupTeam, hk]
    · simp [setTeam, lookupTeam, hk, ih]

theorem lookupTeam_setTeam_ne :
    ∀ (t : List (Rat × Sheet)) (k k2 : Rat) (sh : Sheet), k2 ≠ k →
      lookupTeam (setTeam t k sh) k2 = lookupTeam t k2 := by
  intro t
  induction t with
  | nil =>
    intro k k2 sh hne
    have hne2 : ¬ k = k2 := fun h => hne h.symm
    simp [setTeam, lookupTeam, hne2]
  | cons p rest ih =>
    intro k k2 sh hne
    obtain ⟨k0, sh0⟩ := p
    by_cases hk : k0 = k
    · subst hk
      have hne2 : ¬ k0 = k2 := fun h => hne h.symm
      simp [setTeam, lookupTeam, hne2]
    · simp [setTeam, lookupTeam, hk, ih _ _ sh hne]

-- ── processRow branch characterizations ─────────────────────────────────

theorem processRow_src_cases (tc tk r : Nat) (row : List Cell) (ls : LoopState) :
    (processRow tc tk r row ls).src = ls.src ∨
    (processRow tc tk r row ls).src =
      setCell ls.src (r + 1) tk (Cell.str SA_TRACKING_COL) := by
  simp only [processRow]
  by_cases h1 : (row[tk - 1]?).getD Cell.undefined = Cell.str SA_TRACKING_COL ∨
      (row[tk - 1]?).getD Cell.undefined = Cell.boolean true ∨
      (row[tk - 1]?).getD Cell.undefined = Cell.str "TRUE"
  · rw [if_pos h1]; left; rfl
  · rw [if_neg h1]
    by_cases h2 : (row[tc - 1]?).getD Cell.undefined = Cell.str "" ∨
        (row[tc - 1]?).getD Cell.undefined = Cell.null ∨
        (row[tc - 1]?).getD Cell.undefined = Cell.undefined
    · rw [if_pos h2]; left; rfl
    · rw [if_neg h2]
      cases hjs : jsNumber ((row[tc - 1]?).getD Cell.undefined) with
      | none => left; rfl
      | some q =>
        simp only []
        by_cases hq : q ≤ 0
        · rw [if_pos hq]; left; rfl
        · rw [if_neg hq]
          cases hlk : lookupTeam ls.teams q <;> right <;> rfl

theorem processRow_of_not_pushes (tc tk r : Nat) (row : List Cell) (ls : LoopState)
    (h : rowPushes tc tk row = false) :
    (processRow tc tk r row ls).src = ls.src ∧
    (processRow tc tk r row ls).teams = ls.teams ∧
    (processRow tc tk r row ls).pushed = ls.pushed := by
  simp only [processRow]
  simp only [rowPushes] at h
  by_cases h1 : (row[tk - 1]?).getD Cell.undefined = Cell.str SA_TRACKING_COL ∨
      (row[tk - 1]?).getD Cell.undefined = Cell.boolean true ∨
      (row[tk - 1]?).getD Cell.undefined = Cell.str "TRUE"
  · rw [if_pos h1]; exact ⟨rfl, rfl, rfl⟩
  · rw [if_neg h1]
    rw [if_neg h1] at h
    by_cases h2 : (row[tc - 1]?).getD Cell.undefined = Cell.str "" ∨
        (row[tc - 1]?).getD Cell.undefined = Cell.null ∨
        (row[tc - 1]?).getD Cell.undefined = Cell.undefined
    · rw [if_pos h2]; exact ⟨rfl, rfl, rfl⟩
    · rw [if_neg h2]
      rw [if_neg h2] at h
      cases hjs : jsNumber ((row[tc - 1]?).getD Cell.undefined) with
      | none => exact ⟨rfl, rfl, rfl⟩
      | some q =>
        rw [hjs] at h
        simp only [] at h ⊢
        have hq : q ≤ 0 := not_lt.mp (of_decide_eq_false h)
        rw [if_pos hq]
        exact ⟨rfl, rfl, rfl⟩

theorem processRow_of_pushes (tc tk r : Nat) (row : List Cell) (ls : LoopState)
    (h : rowPushes tc tk row = true) :
    (processRow tc tk r row ls).src =
      setCell ls.src (r + 1) tk (Cell.str SA_TRACKING_COL) ∧
    (processRow tc tk r row ls).pushed = ls.pushed + 1 := by
  simp only [processRow]
  simp only [rowPushes] at h
  by_cases h1 : (row[tk - 1]?).getD Cell.undefined = Cell.str SA_TRACKING_COL ∨
      (row[tk - 1]?).getD Cell.undefined = Cell.boolean true ∨
      (row[tk - 1]?).getD Cell.undefined = Cell.str "TRUE"
  · rw [if_pos h1] at h; simp at h
  · rw [if_neg h1]
    rw [if_neg h1] at h
    by_cases h2 : (row[tc - 1]?).getD Cell.undefined = Cell.str "" ∨
        (row[tc - 1]?).getD Cell.undefined = Cell.null ∨
        (row[tc - 1]?).getD Cell.undefined = Cell.undefined
    · rw [if_pos h2] at h; simp at h
    · rw [if_neg h2]
      rw [if_neg h2] at h
      cases hjs : jsNumber ((row[tc - 1]?).getD Cell.undefined) with
      | none => rw [hjs] at h; simp only [] at h; exact absurd h (by simp)
      | some q =>
        rw [hjs] at h
        simp only [] at h ⊢
        have hq : ¬ q ≤ 0 := not_le.mpr (of_decide_eq_true h)
        rw [if_neg hq]
        cases hlk : lookupTeam ls.teams q <;> exact ⟨rfl, rfl⟩

-- ── loop equations ──────────────────────────────────────────────────────

theorem runRows_nil (tc tk r0 : Nat) (ls : LoopState) :
    runRows tc tk r0 [] ls = ls := rfl

theorem runRows_cons (tc tk r0 : Nat) (row : List Cell) (rest : List (List Cell))
    (ls : LoopState) :
    runRows tc tk r0 (row :: rest) ls =
      runRows tc tk (r0 + 1) rest (processRow tc tk r0 row ls) := rfl

-- ── the write footprint of the loop on the source sheet ─────────────────

/-- Every source-sheet cell after a loop run either kept its value or is
the tracking sentinel, and the latter only in the tracking column at the
sheet rows of processed data rows. -/
theorem runRows_src_cells (tc tk : Nat) (htk : 1 ≤ tk) :
    ∀ (rows : List (List Cell)) (r0 : Nat) (ls : LoopState) (r c : Nat),
      getCell (runRows tc tk r0 rows ls).src r c = getCell ls.src r c ∨
      (c = tk ∧ r0 + 1 ≤ r ∧ r ≤ r0 + rows.length ∧
        getCell (runRows tc tk r0 rows ls).src r c = Cell.str SA_TRACKING_COL) := by
  intro rows
  obtain ⟨tk1, rfl⟩ : ∃ t1, tk = t1 + 1 := ⟨tk - 1, by omega⟩
  induction rows with
  | nil => intro r0 ls r c; left; rfl
  | cons row rest ih =>
    intro r0 ls r c
    rw [runRows_cons]
    rcases ih (r0 + 1) (processRow tc (tk1 + 1) r0 row ls) r c with hu | ⟨hc, hr1, hr2, hs⟩
    · rcases processRow_src_cases tc (tk1 + 1) r0 row ls with he | he
      · left; rw [hu, he]
      · rw [he] at hu
        cases r with
        | zero => left; rw [hu]; rfl
        | succ r1 =>
          cases c with
          | zero => left; rw [hu]; rfl
          | succ c1 =>
            by_cases hrc : r1 = r0 ∧ c1 = tk1
            · right
              refine ⟨by omega, by omega, by simp [List.length_cons]; omega, ?_⟩
              rw [hu, hrc.1, hrc.2]
              exact getCell_setCell_self ls.src r0 tk1 (Cell.str SA_TRACKING_COL)
            · left
              rw [hu]
              exact getCell_setCell_ne ls.src r0 tk1 r1 c1 _ hrc
    · right
      refine ⟨hc, by omega, ?_, hs⟩
      simp only [List.length_cons]
      omega

theorem runRows_src_cell_ne_col (tc tk : Nat) (htk : 1 ≤ tk)
    (rows : List (List Cell)) (r0 : Nat) (ls : LoopState) (r c : Nat) (hc : c ≠ tk) :
    getCell (runRows tc tk r0 rows ls).src r c = getCell ls.src r c := by
  rcases runRows_src_cells tc tk htk rows r0 ls r c with h | ⟨h, _⟩
  · exact h
  · exact absurd h hc

theorem runRows_src_cell_low (tc tk : Nat) (htk : 1 ≤ tk)
    (rows : List (List Cell)) (r0 : Nat) (ls : LoopState) (r c : Nat) (hr : r ≤ r0) :
    getCell (runRows tc tk r0 rows ls).src r c = getCell ls.src r c := by
  rcases runRows_src_cells tc tk htk rows r0 ls r c with h | ⟨_, h1, _, _⟩
  · exact h
  · omega

theorem runRows_src_cell_high (tc tk : Nat) (htk : 1 ≤ tk)
    (rows : List (List Cell)) (r0 : Nat) (ls : LoopState) (r c : Nat)
    (hr : r0 + rows.length < r) :
    getCell (runRows tc tk r0 rows ls).src r c = getCell ls.src r c := by
  rcases runRows_src_cells tc tk htk rows r0 ls r c with h | ⟨_, _, h2, _⟩
  · exact h
  · omega

theorem runRows_sentinel_persists (tc tk : Nat) (htk : 1 ≤ tk)
    (rows : List (List Cell)) (r0 : Nat) (ls : LoopState) (r : Nat)
    (h : getCell ls.src r tk = Cell.str SA_TRACKING_COL) :
    getCell (runRows tc tk r0 rows ls).src r tk = Cell.str SA_TRACKING_COL := by
  rcases runRows_src_cells tc tk htk rows r0 ls r tk with hu | ⟨_, _, _, hs⟩
  · rw [hu, h]
  · exact hs

-- ── grid extent is stable across a loop run ─────────────────────────────

theorem runRows_getLastRow (tc tk : Nat) (htk : 1 ≤ tk) :
    ∀ (rows : List (List Cell)) (r0 : Nat) (ls : LoopState),
      r0 + rows.length ≤ getLastRow ls.src →
      getLastRow (runRows tc tk r0 rows ls).src = getLastRow ls.src := by
  intro rows
  obtain ⟨tk1, rfl⟩ : ∃ t1, tk = t1 + 1 := ⟨tk - 1, by omega⟩
  induction rows with
  | nil => intro r0 ls _; rfl
  | cons row rest ih =>
    intro r0 ls hlen
    rw [runRows_cons]
    have hstep : getLastRow (processRow tc (tk1 + 1) r0 row ls).src = getLastRow ls.src := by
      rcases processRow_src_cases tc (tk1 + 1) r0 row ls with he | he
      · rw [he]
      · rw [he, getLastRow_setCell]
        simp only [List.length_cons] at hlen
        omega
    have hlen2 : (r0 + 1) + rest.length ≤
        getLastRow (processRow tc (tk1 + 1) r0 row ls).src := by
      rw [hstep]
      simp only [List.length_cons] at hlen
      omega
    rw [ih (r0 + 1) _ hlen2]
    exact hstep

theorem runRows_getLastColumn (tc tk : Nat) (htk : 1 ≤ tk) :
    ∀ (rows : List (List Cell)) (r0 : Nat) (ls : LoopState),
      tk ≤ getLastColumn ls.src →
      getLastColumn (runRows tc tk r0 rows ls).src = getLastColumn ls.src := by
  intro rows
  obtain ⟨tk1, rfl⟩ : ∃ t1, tk = t1 + 1 := ⟨tk - 1, by omega⟩
  induction rows with
  | nil => intro r0 ls _; rfl
  | cons row rest ih =>
    intro r0 ls hcol
    rw [runRows_cons]
    have hstep : getLastColumn (processRow tc (tk1 + 1) r0 row ls).src = getLastColumn ls.src := by
      rcases processRow_src_cases tc (tk1 + 1) r0 row ls with he | he
      · rw [he]
      · rw [he, getLastColumn_setCell]
        omega
    rw [ih (r0 + 1) _ (by rw [hstep]; exact hcol)]
    exact hstep

-- ── a pushable row gets marked ──────────────────────────────────────────

theorem runRows_marks_pushed (tc tk : Nat) (htk : 1 ≤ tk) :
    ∀ (rows : List (List Cell)) (r0 : Nat) (ls : LoopState) (k : Nat) (row : List Cell),
      rows[k]? = some row → rowPushes tc tk row = true →
      getCell (runRows tc tk r0 rows ls).src (r0 + k + 1) tk = Cell.str SA_TRACKING_COL := by
  intro rows
  obtain ⟨tk1, rfl⟩ : ∃ t1, tk = t1 + 1 := ⟨tk - 1, by omega⟩
  induction rows with
  | nil => intro r0 ls k row h _; simp at h
  | cons row0 rest ih =>
    intro r0 ls k row h hp
    rw [runRows_cons]
    cases k with
    | zero =>
      have hrow : row0 = row := by simpa using h
      subst hrow
      have hsrc := (processRow_of_pushes tc (tk1 + 1) r0 row0 ls hp).1
      apply runRows_sentinel_persists tc (tk1 + 1) htk rest (r0 + 1) _ (r0 + 0 + 1)
      rw [hsrc]
      have : r0 + 0 + 1 = r0 + 1 := by omega
      rw [this]
      exact getCell_setCell_self ls.src r0 tk1 (Cell.str SA_TRACKING_COL)
    | succ k1 =>
      have h1 : rest[k1]? = some row := by simpa using h
      have := ih (r0 + 1) (processRow tc (tk1 + 1) r0 row0 ls) k1 row h1 hp
      have harith : r0 + 1 + k1 + 1 = r0 + (k1 + 1) + 1 := by omega
      rwa [harith] at this

-- ── a run whose snapshot rows never push changes nothing ────────────────

theorem runRows_no_push (tc tk : Nat) :
    ∀ (rows : List (List Cell)) (r0 : Nat) (ls : LoopState),
      (∀ (k : Nat) (row : List Cell), rows[k]? = some row → rowPushes tc tk row = false) →
      (runRows tc tk r0 rows ls).src = ls.src ∧
      (runRows tc tk r0 rows ls).teams = ls.teams ∧
      (runRows tc tk r0 rows ls).pushed = ls.pushed := by
  intro rows
  induction rows with
  | nil => intro r0 ls _; exact ⟨rfl, rfl, rfl⟩
  | cons row rest ih =>
    intro r0 ls h
    rw [runRows_cons]
    have h0 : rowPushes tc tk row = false := h 0 row (by simp)
    obtain ⟨hsrc, hteams, hpushed⟩ := processRow_of_not_pushes tc tk r0 row ls h0
    have hrest : ∀ (k : Nat) (r2 : List Cell), rest[k]? = some r2 → rowPushes tc tk r2 = false := by
      intro k r2 hk
      apply h (k + 1) r2
      simpa using hk
    obtain ⟨hsrc2, hteams2, hpushed2⟩ := ih (r0 + 1) (processRow tc tk r0 row ls) hrest
    exact ⟨hsrc2.trans hsrc, hteams2.trans hteams, hpushed2.trans hpushed⟩

-- ── content preservation (append-only writes) ───────────────────────────

/-- `b` agrees with `a` on every cell that is non-empty in `a`: writes
into `b` never overwrote existing content of `a`. -/
def preservesContent (a b : Sheet) : Prop :=
  ∀ r c, cellNonEmpty (getCell a r c) = true → getCell b r c = getCell a r c

theorem preservesContent_refl (a : Sheet) : preservesContent a a :=
  fun _ _ _ => rfl

theorem preservesContent_trans {a b c : Sheet}
    (h1 : preservesContent a b) (h2 : preservesContent b c) :
    preservesContent a c := by
  intro r c0 hne
  have e1 := h1 r c0 hne
  have hne2 : cellNonEmpty (getCell b r c0) = true := by rw [e1]; exact hne
  have e2 := h2 r c0 hne2
  rw [e2, e1]

/-- The paste at `findLastContentRow + gap + 1` never changes a cell that
was non-empty before: every cell it can touch lies strictly below the
last content row. -/
theorem writeRowAt_pasteRow_preserves (sh : Sheet) (g : Nat) (vals : List Cell) :
    preservesContent sh (writeRowAt sh (findLastContentRow sh + g + 1) vals) := by
  intro r c hne
  cases r with
  | zero => simp [getCell, cellNonEmpty] at hne
  | succ r1 =>
    cases c with
    | zero => rfl
    | succ c0 =>
      rw [getCell_writeRowAt]
      by_cases hcase : r1 = findLastContentRow sh + g ∧ c0 < vals.length
      · exfalso
        have hlt : findLastContentRow sh < r1 + 1 := by omega
        have hafter := findLastContentRow_after sh (r1 + 1) (c0 + 1) hlt
        rw [hafter] at hne
        exact absurd hne (by simp)
      · rw [if_neg hcase]

-- ── getOrCreateTrackingColumn characterization ──────────────────────────

theorem getOrCreate_found (sheet : Sheet) (lc i : Nat)
    (h : headerFindSA (readRow sheet 1 lc) = some i) :
    getOrCreateTrackingColumn sheet lc = (i + 1, sheet) := by
  simp only [getOrCreateTrackingColumn, h]

theorem getOrCreate_created (sheet : Sheet) (lc : Nat)
    (h : headerFindSA (readRow sheet 1 lc) = none) :
    getOrCreateTrackingColumn sheet lc =
      (lc + 1, setCell sheet 1 (lc + 1) (Cell.str SA_TRACKING_COL)) := by
  simp only [getOrCreateTrackingColumn, h]

theorem getOrCreate_pos (sheet : Sheet) (lc : Nat) :
    1 ≤ (getOrCreateTrackingColumn sheet lc).1 := by
  cases h : headerFindSA (readRow sheet 1 lc) with
  | some i => rw [getOrCreate_found sheet lc i h]; omega
  | none => rw [getOrCreate_created sheet lc h]; omega

theorem getOrCreate_cell_ne_header (sheet : Sheet) (lc r c : Nat) (hr : 2 ≤ r) :
    getCell (getOrCreateTrackingColumn sheet lc).2 r c = getCell sheet r c := by
  cases h : headerFindSA (readRow sheet 1 lc) with
  | some i => rw [getOrCreate_found sheet lc i h]
  | none =>
    rw [getOrCreate_created sheet lc h]
    obtain ⟨r1, rfl⟩ : ∃ r1, r = r1 + 1 := ⟨r - 1, by omega⟩
    cases c with
    | zero => rfl
    | succ c0 =>
      exact getCell_setCell_ne sheet 0 lc r1 c0 _ (by omega)

theorem getOrCreate_col_le (sheet : Sheet) :
    (getOrCreateTrackingColumn sheet (getLastColumn sheet)).1 ≤
      getLastColumn (getOrCreateTrackingColumn sheet (getLastColumn sheet)).2 := by
  cases h : headerFindSA (readRow sheet 1 (getLastColumn sheet)) with
  | some i =>
    rw [getOrCreate_found sheet _ i h]
    have hi := headerFindSA_lt _ i h
    rw [readRow_length] at hi
    simpa using hi
  | none =>
    rw [getOrCreate_created sheet _ h]
    simp only [getLastColumn_setCell]
    omega

theorem getOrCreate_lastRow (sheet : Sheet) (lc : Nat) (h : 1 ≤ getLastRow sheet) :
    getLastRow (getOrCreateTrackingColumn sheet lc).2 = getLastRow sheet := by
  cases hf : headerFindSA (readRow sheet 1 lc) with
  | some i => rw [getOrCreate_found sheet lc i hf]
  | none =>
    rw [getOrCreate_created sheet lc hf]
    rw [getLastRow_setCell]
    omega

/-- Rerunning the tracking-column resolution on any sheet whose header
row and column extent agree with the sheet the first resolution produced
finds the same column and performs no mutation. -/
theorem getOrCreate_stable (sheet b : Sheet)
    (hheader : ∀ c : Nat, getCell b 1 c =
      getCell (getOrCreateTrackingColumn sheet (getLastColumn sheet)).2 1 c)
    (hcol : getLastColumn b =
      getLastColumn (getOrCreateTrackingColumn sheet (getLastColumn sheet)).2) :
    getOrCreateTrackingColumn b (getLastColumn b) =
      ((getOrCreateTrackingColumn sheet (getLastColumn sheet)).1, b) := by
  cases hf : headerFindSA (readRow sheet 1 (getLastColumn sheet)) with
  | some i =>
    have he := getOrCreate_found sheet _ i hf
    rw [he] at hheader hcol ⊢
    have hrr : readRow b 1 (getLastColumn b) = readRow sheet 1 (getLastColumn sheet) := by
      rw [hcol]
      exact readRow_congr b sheet 1 _ (fun j _ => hheader (j + 1))
    rw [getOrCreate_found b _ i (by rw [hrr]; exact hf)]
  | none =>
    have he := getOrCreate_created sheet _ hf
    rw [he] at hheader hcol ⊢
    set lc := getLastColumn sheet with hlc
    have hcol1 : getLastColumn (setCell sheet 1 (lc + 1) (Cell.str SA_TRACKING_COL)) =
        lc + 1 := by
      rw [getLastColumn_setCell]
      omega
    rw [hcol1] at hcol
    have hrr : readRow b 1 (lc + 1) =
        readRow sheet 1 lc ++ [Cell.str SA_TRACKING_COL] := by
      rw [readRow_succ_cols]
      have hback : getCell b 1 (lc + 1) = Cell.str SA_TRACKING_COL := by
        rw [hheader (lc + 1)]
        exact getCell_setCell_self sheet 0 lc (Cell.str SA_TRACKING_COL)
      rw [hback]
      have hfront : readRow b 1 lc = readRow sheet 1 lc := by
        apply readRow_congr
        intro j hj
        rw [hheader (j + 1)]
        exact getCell_setCell_ne sheet 0 lc 0 j _ (by omega)
      rw [hfront]
    have hfind : headerFindSA (readRow b 1 (lc + 1)) = some lc := by
      rw [hrr, headerFindSA_append_of_none _ _ hf, if_pos rfl, readRow_length]
    rw [hcol]
    rw [getOrCreate_found b (lc + 1) lc hfind]

-- ── rowPushes helpers ───────────────────────────────────────────────────

theorem rowPushes_false_of (tc tk : Nat) (row : List Cell)
    (h : (row[tk - 1]?).getD Cell.undefined = Cell.str SA_TRACKING_COL ∨
         (row[tk - 1]?).getD Cell.undefined = Cell.boolean true ∨
         (row[tk - 1]?).getD Cell.undefined = Cell.str "TRUE" ∨
         (row[tc - 1]?).getD Cell.undefined = Cell.str "" ∨
         (row[tc - 1]?).getD Cell.undefined = Cell.null ∨
         (row[tc - 1]?).getD Cell.undefined = Cell.undefined ∨
         jsNumber ((row[tc - 1]?).getD Cell.undefined) = none ∨
         (∃ q, jsNumber ((row[tc - 1]?).getD Cell.undefined) = some q ∧ q ≤ 0)) :
    rowPushes tc tk row = false := by
  simp only [rowPushes]
  by_cases h1 : (row[tk - 1]?).getD Cell.undefined = Cell.str SA_TRACKING_COL ∨
      (row[tk - 1]?).getD Cell.undefined = Cell.boolean true ∨
      (row[tk - 1]?).getD Cell.undefined = Cell.str "TRUE"
  · rw [if_pos h1]
  · rw [if_neg h1]
    by_cases h2 : (row[tc - 1]?).getD Cell.undefined = Cell.str "" ∨
        (row[tc - 1]?).getD Cell.undefined = Cell.null ∨
        (row[tc - 1]?).getD Cell.undefined = Cell.undefined
    · rw [if_pos h2]
    · rw [if_neg h2]
      rcases h with c | c | c | c | c | c | c | ⟨q, hq, hle⟩
      · exact absurd (Or.inl c) h1
      · exact absurd (Or.inr (Or.inl c)) h1
      · exact absurd (Or.inr (Or.inr c)) h1
      · exact absurd (Or.inl c) h2
      · exact absurd (Or.inr (Or.inl c)) h2
      · exact absurd (Or.inr (Or.inr c)) h2
      · simp only [c]
      · simp only [hq]
        exact decide_eq_false (not_lt.mpr hle)

theorem rowPushes_true_of (tc tk : Nat) (row : List Cell) (q : Rat)
    (h1 : ¬((row[tk - 1]?).getD Cell.undefined = Cell.str SA_TRACKING_COL ∨
        (row[tk - 1]?).getD Cell.undefined = Cell.boolean true ∨
        (row[tk - 1]?).getD Cell.undefined = Cell.str "TRUE"))
    (h2 : ¬((row[tc - 1]?).getD Cell.undefined = Cell.str "" ∨
        (row[tc - 1]?).getD Cell.undefined = Cell.null ∨
        (row[tc - 1]?).getD Cell.undefined = Cell.undefined))
    (hjs : jsNumber ((row[tc - 1]?).getD Cell.undefined) = some q) (hq : 0 < q) :
    rowPushes tc tk row = true := by
  simp only [rowPushes]
  rw [if_neg h1, if_neg h2]
  simp only [hjs]
  exact decide_eq_true hq

theorem rowPushes_depends (tc tk : Nat) (row1 row2 : List Cell)
    (ht : (row1[tk - 1]?).getD Cell.undefined = (row2[tk - 1]?).getD Cell.undefined)
    (hr : (row1[tc - 1]?).getD Cell.undefined = (row2[tc - 1]?).getD Cell.undefined) :
    rowPushes tc tk row1 = rowPushes tc tk row2 := by
  simp only [rowPushes]
  rw [ht, hr]

theorem readRow_getD (sh : Sheet) (r cols j : Nat) (d : Cell) (h : j < cols) :
    ((readRow sh r cols)[j]?).getD d = getCell sh r (j + 1) := by
  rw [readRow_get sh r cols j h]
  rfl

-- ── driver shape lemmas ─────────────────────────────────────────────────

/-- The loop state `pushSADataToTeamSheets` ends with once past its
guards. -/
def driverLoop (st : SpreadState) : LoopState :=
  runRows 1 (getOrCreateTrackingColumn st.src (getLastColumn st.src)).1 1
    ((readGrid (getOrCreateTrackingColumn st.src (getLastColumn st.src)).2
        (getLastRow st.src)
        (getOrCreateTrackingColumn st.src (getLastColumn st.src)).1).drop 1)
    ⟨(getOrCreateTrackingColumn st.src (getLastColumn st.src)).2, st.teams, 0, 0, 0, []⟩

/-- The loop state the interrupted execution ends with once past the
guards. -/
def interruptedLoop (st : SpreadState) (k : Nat) : LoopState :=
  runRows 1 (getOrCreateTrackingColumn st.src (getLastColumn st.src)).1 1
    (((readGrid (getOrCreateTrackingColumn st.src (getLastColumn st.src)).2
        (getLastRow st.src)
        (getOrCreateTrackingColumn st.src (getLastColumn st.src)).1).drop 1).take k)
    ⟨(getOrCreateTrackingColumn st.src (getLastColumn st.src)).2, st.teams, 0, 0, 0, []⟩

theorem resolveColumn_team : resolveColumn SA_TEAM_COLUMN = some 1 := by decide

theorem driver_abort (st : SpreadState) (h : getLastRow st.src < 2) :
    pushSADataToTeamSheets st = (st, none) := by
  simp only [pushSADataToTeamSheets]
  rw [if_pos h]

theorem driver_run (st : SpreadState) (h : 2 ≤ getLastRow st.src) :
    pushSADataToTeamSheets st =
      (⟨(driverLoop st).src, (driverLoop st).teams⟩,
        some ⟨(driverLoop st).pushed, (driverLoop st).skipped,
          (driverLoop st).newSheets, (driverLoop st).log⟩) := by
  simp only [pushSADataToTeamSheets, driverLoop]
  rw [if_neg (by omega : ¬ getLastRow st.src < 2)]
  simp only [resolveColumn_team]
  rw [if_neg (by decide : ¬ (1 : Int) = 0)]
  simp only [Int.toNat_one]

theorem interrupted_abort (st : SpreadState) (k : Nat) (h : getLastRow st.src < 2) :
    pushSADataInterrupted st k = st := by
  simp only [pushSADataInterrupted]
  rw [if_pos h]

theorem interrupted_run (st : SpreadState) (k : Nat) (h : 2 ≤ getLastRow st.src) :
    pushSADataInterrupted st k =
      ⟨(interruptedLoop st k).src, (interruptedLoop st k).teams⟩ := by
  simp only [pushSADataInterrupted, interruptedLoop]
  rw [if_neg (by omega : ¬ getLastRow st.src < 2)]
  simp only [resolveColumn_team]
  rw [if_neg (by decide : ¬ (1 : Int) = 0)]
  simp only [Int.toNat_one]

-- ── data snapshot indexing ──────────────────────────────────────────────

theorem dropGrid_get (sh : Sheet) (n cols k : Nat) (hk : 1 + k < n) :
    ((readGrid sh n cols).drop 1)[k]? = some (readRow sh (k + 2) cols) := by
  rw [List.getElem?_drop, readGrid_get sh n cols (1 + k) hk]
  have h12 : 1 + k + 1 = k + 2 := by omega
  rw [h12]

theorem dropGrid_get_none (sh : Sheet) (n cols k : Nat) (hk : n ≤ 1 + k) :
    ((readGrid sh n cols).drop 1)[k]? = none := by
  rw [List.getElem?_drop]
  apply List.getElem?_eq_none
  rw [readGrid_length]
  omega

-- ── the grid extent and the tracking column are stable across a run ─────

theorem loop_stability_aux (st : SpreadState) (h2 : 2 ≤ getLastRow st.src)
    (rows : List (List Cell))
    (hlen : 1 + rows.length ≤ getLastRow st.src) :
    getLastRow (runRows 1 (getOrCreateTrackingColumn st.src (getLastColumn st.src)).1 1 rows
        ⟨(getOrCreateTrackingColumn st.src (getLastColumn st.src)).2,
          st.teams, 0, 0, 0, []⟩).src = getLastRow st.src ∧
    getOrCreateTrackingColumn
        (runRows 1 (getOrCreateTrackingColumn st.src (getLastColumn st.src)).1 1 rows
          ⟨(getOrCreateTrackingColumn st.src (getLastColumn st.src)).2,
            st.teams, 0, 0, 0, []⟩).src
        (getLastColumn
          (runRows 1 (getOrCreateTrackingColumn st.src (getLastColumn st.src)).1 1 rows
            ⟨(getOrCreateTrackingColumn st.src (getLastColumn st.src)).2,
              st.teams, 0, 0, 0, []⟩).src) =
      ((getOrCreateTrackingColumn st.src (getLastColumn st.src)).1,
        (runRows 1 (getOrCreateTrackingColumn st.src (getLastColumn st.src)).1 1 rows
          ⟨(getOrCreateTrackingColumn st.src (getLastColumn st.src)).2,
            st.teams, 0, 0, 0, []⟩).src) := by
  set tk := (getOrCreateTrackingColumn st.src (getLastColumn st.src)).1 with htkdef
  set src1 := (getOrCreateTrackingColumn st.src (getLastColumn st.src)).2 with hsrc1def
  set init : LoopState := ⟨src1, st.teams, 0, 0, 0, []⟩ with hinitdef
  have htk : 1 ≤ tk := getOrCreate_pos st.src (getLastColumn st.src)
  have hlr1 : getLastRow src1 = getLastRow st.src :=
    getOrCreate_lastRow st.src (getLastColumn st.src) (by omega)
  have hcolle : tk ≤ getLastColumn src1 := getOrCreate_col_le st.src
  have hinitsrc : init.src = src1 := rfl
  have hpart1 : getLastRow (runRows 1 tk 1 rows init).src = getLastRow st.src := by
    rw [runRows_getLastRow 1 tk htk rows 1 init (by rw [hinitsrc, hlr1]; omega)]
    rw [hinitsrc, hlr1]
  refine ⟨hpart1, ?_⟩
  apply getOrCreate_stable
  · intro c
    rw [runRows_src_cell_low 1 tk htk rows 1 init 1 c (by omega)]
  · rw [runRows_getLastColumn 1 tk htk rows 1 init (by rw [hinitsrc]; exact hcolle)]

theorem driverLoop_stability (st : SpreadState) (h2 : 2 ≤ getLastRow st.src) :
    getLastRow (driverLoop st).src = getLastRow st.src ∧
    getOrCreateTrackingColumn (driverLoop st).src (getLastColumn (driverLoop st).src) =
      ((getOrCreateTrackingColumn st.src (getLastColumn st.src)).1, (driverLoop st).src) := by
  apply loop_stability_aux st h2
  rw [List.length_drop, readGrid_length]
  have := getOrCreate_lastRow st.src (getLastColumn st.src) (by omega : 1 ≤ getLastRow st.src)
  omega

theorem interruptedLoop_stability (st : SpreadState) (k : Nat)
    (h2 : 2 ≤ getLastRow st.src) :
    getLastRow (interruptedLoop st k).src = getLastRow st.src ∧
    getOrCreateTrackingColumn (interruptedLoop st k).src
        (getLastColumn (interruptedLoop st k).src) =
      ((getOrCreateTrackingColumn st.src (getLastColumn st.src)).1,
        (interruptedLoop st k).src) := by
  apply loop_stability_aux st h2
  rw [List.length_take, List.length_drop, readGrid_length]
  have := getOrCreate_lastRow st.src (getLastColumn st.src) (by omega : 1 ≤ getLastRow st.src)
  omega

/-- Every data row of the snapshot a second driver run would take after a
completed first run fails the push test: it is either already marked, or
it was skipped by the first run for a reason that still applies. -/
theorem second_run_no_push (st : SpreadState) (h2 : 2 ≤ getLastRow st.src) :
    ∀ (k : Nat) (row : List Cell),
      ((readGrid (driverLoop st).src (getLastRow st.src)
          (getOrCreateTrackingColumn st.src (getLastColumn st.src)).1).drop 1)[k]? =
        some row →
      rowPushes 1 (getOrCreateTrackingColumn st.src (getLastColumn st.src)).1 row =
        false := by
  set tk := (getOrCreateTrackingColumn st.src (getLastColumn st.src)).1 with htkdef
  set src1 := (getOrCreateTrackingColumn st.src (getLastColumn st.src)).2 with hsrc1def
  set lastRow := getLastRow st.src with hlrdef
  set data1 := (readGrid src1 lastRow tk).drop 1 with hdata1def
  set init : LoopState := ⟨src1, st.teams, 0, 0, 0, []⟩ with hinitdef
  have hDL : driverLoop st = runRows 1 tk 1 data1 init := rfl
  have htk : 1 ≤ tk := getOrCreate_pos st.src (getLastColumn st.src)
  intro k row hk
  by_cases hkb : 1 + k < lastRow
  case neg =>
    rw [dropGrid_get_none _ _ _ _ (by omega)] at hk
    exact absurd hk (by simp)
  case pos =>
    rw [dropGrid_get _ _ _ _ hkb] at hk
    injection hk with hkeq
    subst hkeq
    have htv2 : ((readRow (driverLoop st).src (k + 2) tk)[tk - 1]?).getD Cell.undefined =
        getCell (driverLoop st).src (k + 2) tk := by
      rw [readRow_getD _ _ _ _ _ (by omega : tk - 1 < tk)]
      have hx : tk - 1 + 1 = tk := by omega
      rw [hx]
    have hrt2 : ((readRow (driverLoop st).src (k + 2) tk)[1 - 1]?).getD Cell.undefined =
        getCell (driverLoop st).src (k + 2) 1 := by
      rw [readRow_getD _ _ _ _ _ (by omega : 1 - 1 < tk)]
    have htv1 : ((readRow src1 (k + 2) tk)[tk - 1]?).getD Cell.undefined =
        getCell src1 (k + 2) tk := by
      rw [readRow_getD _ _ _ _ _ (by omega : tk - 1 < tk)]
      have hx : tk - 1 + 1 = tk := by omega
      rw [hx]
    have hrt1 : ((readRow src1 (k + 2) tk)[1 - 1]?).getD Cell.undefined =
        getCell src1 (k + 2) 1 := by
      rw [readRow_getD _ _ _ _ _ (by omega : 1 - 1 < tk)]
    rw [hDL] at htv2 hrt2 ⊢
    rcases runRows_src_cells 1 tk htk data1 1 init (k + 2) tk with hA | ⟨_, _, _, hS⟩
    · have hA2 : getCell (runRows 1 tk 1 data1 init).src (k + 2) tk =
          getCell src1 (k + 2) tk := hA
      rcases runRows_src_cells 1 tk htk data1 1 init (k + 2) 1 with hA1 | ⟨_, _, _, hS1⟩
      · have hA12 : getCell (runRows 1 tk 1 data1 init).src (k + 2) 1 =
            getCell src1 (k + 2) 1 := hA1
        have hd1 : data1[k]? = some (readRow src1 (k + 2) tk) := by
          rw [hdata1def]
          exact dropGrid_get src1 lastRow tk k hkb
        cases hrp : rowPushes 1 tk (readRow src1 (k + 2) tk) with
        | true =>
          have hmark := runRows_marks_pushed 1 tk htk data1 1 init k _ hd1 hrp
          have h12 : 1 + k + 1 = k + 2 := by omega
          rw [h12] at hmark
          apply rowPushes_false_of
          left
          rw [htv2]
          exact hmark
        | false =>
          rw [rowPushes_depends 1 tk _ (readRow src1 (k + 2) tk)
            (by rw [htv2, htv1]; exact hA2) (by rw [hrt2, hrt1]; exact hA12)]
          exact hrp
      · apply rowPushes_false_of
        right; right; right; right; right; right; left
        rw [hrt2, hS1]
        decide
    · apply rowPushes_false_of
      left
      rw [htv2]
      exact hS

/-- C1. Running the driver twice in a row with no intervening changes
pushes nothing the second time and leaves every destination tab exactly
as the first run left it. -/
theorem sa_driver_idempotent (st : SpreadState) :
    (pushSADataToTeamSheets (pushSADataToTeamSheets st).1).1.teams =
      (pushSADataToTeamSheets st).1.teams ∧
    ∀ res2 : RunResult,
      (pushSADataToTeamSheets (pushSADataToTeamSheets st).1).2 = some res2 →
      res2.pushed = 0 := by
  by_cases h2 : 2 ≤ getLastRow st.src
  · have hst1 : (pushSADataToTeamSheets st).1 =
        ⟨(driverLoop st).src, (driverLoop st).teams⟩ := by rw [driver_run st h2]
    rw [hst1]
    have hstab := driverLoop_stability st h2
    have h2b : 2 ≤ getLastRow
        (SpreadState.mk (driverLoop st).src (driverLoop st).teams).src := by
      show 2 ≤ getLastRow (driverLoop st).src
      rw [hstab.1]
      exact h2
    rw [driver_run _ h2b]
    set tk := (getOrCreateTrackingColumn st.src (getLastColumn st.src)).1 with htkdef
    have hDL1 : driverLoop ⟨(driverLoop st).src, (driverLoop st).teams⟩ =
        runRows 1 tk 1
          ((readGrid (driverLoop st).src (getLastRow st.src) tk).drop 1)
          ⟨(driverLoop st).src, (driverLoop st).teams, 0, 0, 0, []⟩ := by
      generalize hF : driverLoop st = F at hstab ⊢
      simp only [driverLoop]
      rw [hstab.2, hstab.1]
    obtain ⟨hsrc2, hteams2, hpushed2⟩ :=
      runRows_no_push 1 tk
        ((readGrid (driverLoop st).src (getLastRow st.src) tk).drop 1) 1
        ⟨(driverLoop st).src, (driverLoop st).teams, 0, 0, 0, []⟩
        (second_run_no_push st h2)
    constructor
    · show (driverLoop ⟨(driverLoop st).src, (driverLoop st).teams⟩).teams =
        (driverLoop st).teams
      rw [hDL1]
      exact hteams2
    · intro res2 hres
      have hres2 : (RunResult.mk
          (driverLoop ⟨(driverLoop st).src, (driverLoop st).teams⟩).pushed
          (driverLoop ⟨(driverLoop st).src, (driverLoop st).teams⟩).skipped
          (driverLoop ⟨(driverLoop st).src, (driverLoop st).teams⟩).newSheets
          (driverLoop ⟨(driverLoop st).src, (driverLoop st).teams⟩).log) = res2 := by
        injection hres
      rw [← hres2]
      show (driverLoop ⟨(driverLoop st).src, (driverLoop st).teams⟩).pushed = 0
      rw [hDL1]
      exact hpushed2
  · have h2' : getLastRow st.src < 2 := by omega
    have habort := driver_abort st h2'
    constructor
    · rw [habort]
      show (pushSADataToTeamSheets st).1.teams = st.teams
      rw [habort]
    · intro res2 hres
      rw [habort] at hres
      have hres' : (pushSADataToTeamSheets st).2 = some res2 := hres
      rw [habort] at hres'
      exact absurd hres' (by simp)

-- ── destination contents only ever gain appended rows ───────────────────

theorem processRow_teams_cases (tc tk r : Nat) (row : List Cell) (ls : LoopState) :
    (processRow tc tk r row ls).teams = ls.teams ∨
    ∃ q sh0,
      (lookupTeam ls.teams q = some sh0 ∨
        (lookupTeam ls.teams q = none ∧ sh0 = Sheet.mk [])) ∧
      (processRow tc tk r row ls).teams =
        setTeam ls.teams q
          (writeRowAt sh0 (findLastContentRow sh0 + SA_ROWS_GAP + 1)
            (row.take (tk - 1))) := by
  simp only [processRow, pushRow]
  by_cases h1 : (row[tk - 1]?).getD Cell.undefined = Cell.str SA_TRACKING_COL ∨
      (row[tk - 1]?).getD Cell.undefined = Cell.boolean true ∨
      (row[tk - 1]?).getD Cell.undefined = Cell.str "TRUE"
  · rw [if_pos h1]; left; rfl
  · rw [if_neg h1]
    by_cases h2 : (row[tc - 1]?).getD Cell.undefined = Cell.str "" ∨
        (row[tc - 1]?).getD Cell.undefined = Cell.null ∨
        (row[tc - 1]?).getD Cell.undefined = Cell.undefined
    · rw [if_pos h2]; left; rfl
    · rw [if_neg h2]
      cases hjs : jsNumber ((row[tc - 1]?).getD Cell.undefined) with
      | none => left; rfl
      | some q =>
        simp only []
        by_cases hq : q ≤ 0
        · rw [if_pos hq]; left; rfl
        · rw [if_neg hq]
          cases hlk : lookupTeam ls.teams q with
          | some sh => exact Or.inr ⟨q, sh, Or.inl hlk, rfl⟩
          | none => exact Or.inr ⟨q, Sheet.mk [], Or.inr ⟨hlk, rfl⟩, rfl⟩

theorem processRow_lookup_mono (tc tk r : Nat) (row : List Cell) (ls : LoopState)
    (k : Rat) (sh : Sheet) (h : lookupTeam ls.teams k = some sh) :
    ∃ sh2, lookupTeam (processRow tc tk r row ls).teams k = some sh2 ∧
      preservesContent sh sh2 := by
  rcases processRow_teams_cases tc tk r row ls with he | ⟨q, sh0, hlk0, he⟩
  · exact ⟨sh, by rw [he]; exact h, preservesContent_refl sh⟩
  · by_cases hkq : k = q
    · subst hkq
      rcases hlk0 with hlk | ⟨hlk, _⟩
      · have hsh : sh0 = sh := by
          rw [h] at hlk
          injection hlk with hx
          exact hx.symm
        subst hsh
        refine ⟨writeRowAt sh0 (findLastContentRow sh0 + SA_ROWS_GAP + 1)
          (row.take (tk - 1)), ?_, ?_⟩
        · rw [he]
          exact lookupTeam_setTeam_self ls.teams k _
        · exact writeRowAt_pasteRow_preserves sh0 SA_ROWS_GAP _
      · rw [h] at hlk
        exact absurd hlk (by simp)
    · refine ⟨sh, ?_, preservesContent_refl sh⟩
      rw [he, lookupTeam_setTeam_ne ls.teams q k _ hkq]
      exact h

theorem runRows_teams_preserve (tc tk : Nat) :
    ∀ (rows : List (List Cell)) (r0 : Nat) (ls : LoopState) (k : Rat) (sh : Sheet),
      lookupTeam ls.teams k = some sh →
      ∃ sh2, lookupTeam (runRows tc tk r0 rows ls).teams k = some sh2 ∧
        preservesContent sh sh2 := by
  intro rows
  induction rows with
  | nil => intro r0 ls k sh h; exact ⟨sh, h, preservesContent_refl sh⟩
  | cons row rest ih =>
    intro r0 ls k sh h
    rw [runRows_cons]
    obtain ⟨sh1, hlk1, hpc1⟩ := processRow_lookup_mono tc tk r0 row ls k sh h
    obtain ⟨sh2, hlk2, hpc2⟩ := ih (r0 + 1) (processRow tc tk r0 row ls) k sh1 hlk1
    exact ⟨sh2, hlk2, preservesContent_trans hpc1 hpc2⟩

theorem driver_teams_preserve (st : SpreadState) (k : Rat) (sh sh2 : Sheet)
    (h1 : lookupTeam st.teams k = some sh)
    (h2 : lookupTeam (pushSADataToTeamSheets st).1.teams k = some sh2) :
    preservesContent sh sh2 := by
  by_cases hg : 2 ≤ getLastRow st.src
  · rw [driver_run st hg] at h2
    have h2b : lookupTeam (driverLoop st).teams k = some sh2 := h2
    set tk := (getOrCreateTrackingColumn st.src (getLastColumn st.src)).1 with htkdef
    set src1 := (getOrCreateTrackingColumn st.src (getLastColumn st.src)).2 with hs1def
    set data1 := (readGrid src1 (getLastRow st.src) tk).drop 1 with hddef
    set init : LoopState := ⟨src1, st.teams, 0, 0, 0, []⟩ with hidef
    have hDL : driverLoop st = runRows 1 tk 1 data1 init := rfl
    obtain ⟨sh3, hlk3, hpc3⟩ := runRows_teams_preserve 1 tk data1 1 init k sh h1
    rw [hDL] at h2b
    rw [hlk3] at h2b
    injection h2b with hx
    rw [← hx]
    exact hpc3
  · rw [driver_abort st (by omega)] at h2
    have h2b : lookupTeam st.teams k = some sh2 := h2
    rw [h1] at h2b
    injection h2b with hx
    rw [← hx]
    exact preservesContent_refl sh

-- ════════════════════════════════════════════════════════════════════════
-- Claim theorems
-- ════════════════════════════════════════════════════════════════════════

/-- C3. `findLastContentRow` returns the 1-based index of the last row
with at least one non-empty cell (0 when the table has none), scanning
within the reported grid extent; a table whose only content sits in row 5
with rows 6 to 10 blank-but-present yields 5, and an empty table yields
0. -/
theorem findLastContentRow_spec (sh : Sheet) :
    (findLastContentRow sh ≤ getLastRow sh) ∧
    (∀ r c, findLastContentRow sh < r → cellNonEmpty (getCell sh r c) = false) ∧
    (0 < findLastContentRow sh →
      ∃ c, cellNonEmpty (getCell sh (findLastContentRow sh) c) = true) ∧
    ((∀ r c, cellNonEmpty (getCell sh r c) = false) → findLastContentRow sh = 0) ∧
    findLastContentRow
      ⟨[[Cell.str ""], [], [Cell.null], [Cell.str ""], [Cell.str "", Cell.num 7],
        [Cell.str ""], [Cell.str ""], [Cell.str ""], [Cell.str ""],
        [Cell.str "", Cell.undefined]]⟩ = 5 ∧
    findLastContentRow ⟨[]⟩ = 0 := by
  refine ⟨findLastContentRow_le sh, findLastContentRow_after sh, findLastContentRow_self sh,
    ?_, by decide, by decide⟩
  intro h
  by_contra hne
  obtain ⟨c, hc⟩ := findLastContentRow_self sh (Nat.pos_of_ne_zero hne)
  rw [h _ c] at hc
  exact absurd hc (by simp)

/-- C10. A cell counts as non-empty exactly when it differs from the
empty string, `null` and `undefined`; in particular the number 0, the
boolean `false` and a whitespace-only string are content and can
determine the append cursor. -/
theorem cellNonEmpty_spec :
    (∀ c : Cell, cellNonEmpty c = true ↔
      (c ≠ Cell.str "" ∧ c ≠ Cell.null ∧ c ≠ Cell.undefined)) ∧
    cellNonEmpty (Cell.num 0) = true ∧
    cellNonEmpty (Cell.boolean false) = true ∧
    cellNonEmpty (Cell.str " ") = true ∧
    findLastContentRow ⟨[[Cell.num 0], [Cell.str ""]]⟩ = 1 ∧
    findLastContentRow ⟨[[Cell.str "x"], [Cell.str " "]]⟩ = 2 := by
  refine ⟨?_, by decide, by decide, by decide, by decide, by decide⟩
  intro c
  simp [cellNonEmpty]

/-- C4 counterexample: the string `"3"` consists of a non-alphabetic
character, yet `resolveColumn` returns the valid (truthy, positive)
index 3 for it rather than an invalid sentinel. -/
theorem resolveColumn_digit_string_cex :
    resolveColumn (ColRef.str "3") = some 3 ∧
    isFalsyCol (resolveColumn (ColRef.str "3")) = false ∧
    "3".toList.all Char.isAlpha = false := by decide

theorem colLetterValue_none :
    ∀ (l : List Char) (acc : Int), (∃ ch ∈ l, ch.toNat < 65 ∨ 90 < ch.toNat) →
      colLetterValue l acc = none := by
  intro l
  induction l with
  | nil =>
    intro acc h
    obtain ⟨ch, hc, _⟩ := h
    simp at hc
  | cons c rest ih =>
    intro acc h
    obtain ⟨ch, hmem, hbad⟩ := h
    simp only [colLetterValue]
    by_cases hcond : ((c.toNat : Int) - 64) < 1 ∨ ((c.toNat : Int) - 64) > 26
    · rw [if_pos hcond]
    · rw [if_neg hcond]
      apply ih
      rcases List.mem_cons.mp hmem with rfl | hmem2
      · exact absurd (by omega : ((ch.toNat : Int) - 64) < 1 ∨ ((ch.toNat : Int) - 64) > 26) hcond
      · exact ⟨ch, hmem2, hbad⟩

/-- C4 amended. `resolveColumn` maps `"A"`, `"Z"`, `"AA"` and `"3"` to 1,
26, 27 and 3; it returns the falsy `null` for every zero or negative
number and for the empty string, a falsy value (`null` or `0`) for every
blank string, and `null` for every string whose trimmed upper-cased form
is not a pure digit string and contains a character outside `A`..`Z`. -/
theorem resolveColumn_spec_amended :
    resolveColumn (ColRef.str "A") = some 1 ∧
    resolveColumn (ColRef.str "Z") = some 26 ∧
    resolveColumn (ColRef.str "AA") = some 27 ∧
    resolveColumn (ColRef.str "3") = some 3 ∧
    (∀ n : Int, n ≤ 0 → resolveColumn (ColRef.num n) = none) ∧
    resolveColumn (ColRef.str "") = none ∧
    (∀ s : String, trimChars s.toList = [] →
      isFalsyCol (resolveColumn (ColRef.str s)) = true) ∧
    (∀ s : String,
      ¬((trimChars s.toList).map jsToUpperChar ≠ [] ∧
        ((trimChars s.toList).map jsToUpperChar).all Char.isDigit) →
      (∃ ch ∈ (trimChars s.toList).map jsToUpperChar,
        ch.toNat < 65 ∨ 90 < ch.toNat) →
      resolveColumn (ColRef.str s) = none) := by
  refine ⟨by decide, by decide, by decide, by decide, ?_, by decide, ?_, ?_⟩
  · intro n hn
    simp only [resolveColumn]
    rw [if_neg (by omega : ¬ n > 0)]
  · intro s htrim
    by_cases hs : s = ""
    · subst hs; decide
    · simp only [resolveColumn]
      rw [if_neg hs, htrim]
      rw [if_neg (by simp)]
      decide
  · intro s hnotdig hbadchar
    by_cases hs : s = ""
    · subst hs
      obtain ⟨ch, hmem, _⟩ := hbadchar
      have hempty : List.map jsToUpperChar (trimChars "".toList) = ([] : List Char) := by
        decide
      rw [hempty] at hmem
      exact absurd hmem (by simp)
    · simp only [resolveColumn]
      rw [if_neg hs, if_neg hnotdig]
      exact colLetterValue_none _ 0 hbadchar

/-- C2. Every migrated row is pasted starting at the append cursor plus
the gap plus one (a cursor of 5 with the fixed gap 5 gives paste row 11),
and the paste at that position never changes a destination cell that was
non-empty before the write; consequently a whole driver run preserves
every non-empty cell of every pre-existing destination tab. -/
theorem sa_paste_append_invariant :
    SA_ROWS_GAP = 5 ∧
    (∀ dest : Sheet, findLastContentRow dest = 5 →
      findLastContentRow dest + SA_ROWS_GAP + 1 = 11) ∧
    (∀ (dest : Sheet) (vals : List Cell) (r c : Nat),
      cellNonEmpty (getCell dest r c) = true →
      getCell (writeRowAt dest (findLastContentRow dest + SA_ROWS_GAP + 1) vals) r c =
        getCell dest r c) ∧
    (∀ (st : SpreadState) (k : Rat) (sh sh2 : Sheet),
      lookupTeam st.teams k = some sh →
      lookupTeam (pushSADataToTeamSheets st).1.teams k = some sh2 →
      ∀ r c, cellNonEmpty (getCell sh r c) = true →
        getCell sh2 r c = getCell sh r c) := by
  refine ⟨rfl, ?_, ?_, ?_⟩
  · intro dest h
    rw [h]
    decide
  · intro dest vals r c h
    exact writeRowAt_pasteRow_preserves dest SA_ROWS_GAP vals r c h
  · intro st k sh sh2 h1 h2
    exact driver_teams_preserve st k sh sh2 h1 h2

/-- C8. `getOrCreateTrackingColumn` returns the found column index with
no mutation when the header already holds the tracking name, and after
any first call a repeated call (with the then-current last column, as the
drivers pass it) returns the same index and the same sheet, so a second
tracking column is never created. -/
theorem getOrCreateTrackingColumn_idem (sheet : Sheet) :
    (∀ i, headerFindSA (readRow sheet 1 (getLastColumn sheet)) = some i →
      getOrCreateTrackingColumn sheet (getLastColumn sheet) = (i + 1, sheet)) ∧
    getOrCreateTrackingColumn
        (getOrCreateTrackingColumn sheet (getLastColumn sheet)).2
        (getLastColumn (getOrCreateTrackingColumn sheet (getLastColumn sheet)).2) =
      ((getOrCreateTrackingColumn sheet (getLastColumn sheet)).1,
        (getOrCreateTrackingColumn sheet (getLastColumn sheet)).2) := by
  constructor
  · intro i h
    exact getOrCreate_found sheet _ i h
  · exact getOrCreate_stable sheet _ (fun c => rfl) rfl

-- ── concrete scenario states ────────────────────────────────────────────

/-- A two-row source: header and one valid team-number row. -/
def stW : SpreadState := ⟨⟨[[Cell.str "T"], [Cell.num 254]]⟩, []⟩

/-- Header, an invalid key row (`"abc"`), then a valid row. -/
def stC5 : SpreadState := ⟨⟨[[Cell.str "T"], [Cell.str "abc"], [Cell.num 254]]⟩, []⟩

/-- Header and a row whose key is the fractional string `"3.5"`. -/
def stC5x : SpreadState := ⟨⟨[[Cell.str "T"], [Cell.str "3.5"]]⟩, []⟩

/-- A marked row whose key cell is empty. -/
def stC9cex : SpreadState :=
  ⟨⟨[[Cell.str "T", Cell.str "SA_PASTED"], [Cell.str "", Cell.str "SA_PASTED"]]⟩, []⟩

/-- Header, an empty-key row, then a valid row. -/
def stC9 : SpreadState := ⟨⟨[[Cell.str "T"], [Cell.str ""], [Cell.num 254]]⟩, []⟩

/-- Three previously migrated rows with distinct keys, their destination
tabs holding the rows pasted by that earlier run at line 6. -/
def st7 : SpreadState :=
  ⟨⟨[[Cell.str "Team", Cell.str "SA_PASTED"],
     [Cell.num 101, Cell.str "SA_PASTED"],
     [Cell.num 102, Cell.str "SA_PASTED"],
     [Cell.num 103, Cell.str "SA_PASTED"]]⟩,
   [(101, ⟨[[], [], [], [], [], [Cell.num 101]]⟩),
    (102, ⟨[[], [], [], [], [], [Cell.num 102]]⟩),
    (103, ⟨[[], [], [], [], [], [Cell.num 103]]⟩)]⟩

/-- C5 counterexample: the key cell `"3.5"` is non-empty and is not
coercible to a positive integer (`Number` yields the non-integer 7/2),
yet the driver pushes the row to destination 7/2, marks its tracking
cell, and records no warning. -/
theorem sa_fractional_key_cex :
    jsNumber (Cell.str "3.5") = some (mkRat 7 2) ∧
    (mkRat 7 2).den ≠ 1 ∧
    (0 : Rat) < mkRat 7 2 ∧
    getCell stC5x.src 2 1 = Cell.str "3.5" ∧
    (pushSADataToTeamSheets stC5x).2 =
      some ⟨1, 0, 1, [LogEntry.created (mkRat 7 2), LogEntry.pasted (mkRat 7 2) 2 6]⟩ ∧
    getCell (pushSADataToTeamSheets stC5x).1.src 2 2 = Cell.str "SA_PASTED" := by
  decide

/-- C5 amended. A data row whose tracking cell is unmarked and whose key
cell is non-empty but not coercible to a positive number (NaN, or at most
0) makes the loop record exactly one warning and hand the remaining rows
on with nothing else changed: no destination write, no tracking mark, no
count change; in the `"abc"` scenario the later valid row is still
pushed. -/
theorem sa_invalid_key_warn_skip_amended :
    (∀ (tc tk r0 : Nat) (row : List Cell) (rest : List (List Cell)) (ls : LoopState),
      ¬((row[tk - 1]?).getD Cell.undefined = Cell.str SA_TRACKING_COL ∨
        (row[tk - 1]?).getD Cell.undefined = Cell.boolean true ∨
        (row[tk - 1]?).getD Cell.undefined = Cell.str "TRUE") →
      ¬((row[tc - 1]?).getD Cell.undefined = Cell.str "" ∨
        (row[tc - 1]?).getD Cell.undefined = Cell.null ∨
        (row[tc - 1]?).getD Cell.undefined = Cell.undefined) →
      (jsNumber ((row[tc - 1]?).getD Cell.undefined) = none ∨
        ∃ q, jsNumber ((row[tc - 1]?).getD Cell.undefined) = some q ∧ q ≤ 0) →
      runRows tc tk r0 (row :: rest) ls =
        runRows tc tk (r0 + 1) rest
          { ls with log := ls.log ++
              [LogEntry.warned (r0 + 1) ((row[tc - 1]?).getD Cell.undefined)] }) ∧
    (pushSADataToTeamSheets stC5).2 =
      some ⟨1, 0, 1, [LogEntry.warned 2 (Cell.str "abc"), LogEntry.created 254,
        LogEntry.pasted 254 3 6]⟩ ∧
    getCell (pushSADataToTeamSheets stC5).1.src 2 2 = Cell.str "" ∧
    lookupTeam (pushSADataToTeamSheets stC5).1.teams 254 =
      some ⟨[[], [], [], [], [], [Cell.num 254]]⟩ := by
  refine ⟨?_, by decide, by decide, by decide⟩
  intro tc tk r0 row rest ls h1 h2 h3
  have hp : processRow tc tk r0 row ls =
      { ls with log := ls.log ++
          [LogEntry.warned (r0 + 1) ((row[tc - 1]?).getD Cell.undefined)] } := by
    simp only [processRow]
    rw [if_neg h1, if_neg h2]
    rcases h3 with hn | ⟨q, hq, hle⟩
    · simp only [hn]
    · simp only [hq]
      rw [if_pos hle]
  rw [runRows_cons, hp]

/-- C9 counterexample: a data row whose key cell is empty but whose
tracking cell already holds the sentinel is counted as skipped: the
skipped counter is incremented for an empty-key row. -/
theorem sa_empty_key_skipped_cex :
    getCell stC9cex.src 2 1 = Cell.str "" ∧
    (pushSADataToTeamSheets stC9cex).2 = some ⟨0, 1, 0, []⟩ := by decide

/-- C9 amended. A data row whose tracking cell is not a sentinel and
whose key cell is empty, null or undefined leaves the loop state exactly
unchanged (no write, no mark, no counter, no log); in the concrete
scenario one empty-key row and one valid row give pushed + skipped = 1,
strictly below the 2 data rows, on the first run and again on the second,
with the empty-key row untouched. -/
theorem sa_empty_key_untouched :
    (∀ (tc tk r0 : Nat) (row : List Cell) (ls : LoopState),
      ¬((row[tk - 1]?).getD Cell.undefined = Cell.str SA_TRACKING_COL ∨
        (row[tk - 1]?).getD Cell.undefined = Cell.boolean true ∨
        (row[tk - 1]?).getD Cell.undefined = Cell.str "TRUE") →
      ((row[tc - 1]?).getD Cell.undefined = Cell.str "" ∨
        (row[tc - 1]?).getD Cell.undefined = Cell.null ∨
        (row[tc - 1]?).getD Cell.undefined = Cell.undefined) →
      processRow tc tk r0 row ls = ls) ∧
    (pushSADataToTeamSheets stC9).2 =
      some ⟨1, 0, 1, [LogEntry.created 254, LogEntry.pasted 254 3 6]⟩ ∧
    (pushSADataToTeamSheets (pushSADataToTeamSheets stC9).1).2 =
      some ⟨0, 1, 0, []⟩ ∧
    getCell (pushSADataToTeamSheets (pushSADataToTeamSheets stC9).1).1.src 2 1 =
      Cell.str "" ∧
    getCell (pushSADataToTeamSheets (pushSADataToTeamSheets stC9).1).1.src 2 2 =
      Cell.str "" := by
  refine ⟨?_, by decide, by decide, by decide, by decide⟩
  intro tc tk r0 row ls h1 h2
  simp only [processRow]
  rw [if_neg h1, if_pos h2]

/-- C7. The force-reset clears the tracking cell of every data row and
then runs the normal driver; on three previously migrated rows all three
tracking cells are cleared and re-set to the sentinel, the run reports
pushed = 3, and each destination keeps its old copy at line 6 with the
duplicate appended at line 12. -/
theorem sa_force_reset_scenario :
    getCell (clearColumnCells st7.src 2 2 3) 2 2 = Cell.str "" ∧
    getCell (clearColumnCells st7.src 2 2 3) 3 2 = Cell.str "" ∧
    getCell (clearColumnCells st7.src 2 2 3) 4 2 = Cell.str "" ∧
    (pushSADataToTeamSheets_FORCE st7).2 =
      some ⟨3, 0, 0, [LogEntry.pasted 101 2 12, LogEntry.pasted 102 3 12,
        LogEntry.pasted 103 4 12]⟩ ∧
    getCell (pushSADataToTeamSheets_FORCE st7).1.src 2 2 = Cell.str "SA_PASTED" ∧
    getCell (pushSADataToTeamSheets_FORCE st7).1.src 3 2 = Cell.str "SA_PASTED" ∧
    getCell (pushSADataToTeamSheets_FORCE st7).1.src 4 2 = Cell.str "SA_PASTED" ∧
    lookupTeam (pushSADataToTeamSheets_FORCE st7).1.teams 101 =
      some ⟨[[], [], [], [], [], [Cell.num 101], [], [], [], [], [],
        [Cell.num 101]]⟩ ∧
    lookupTeam (pushSADataToTeamSheets_FORCE st7).1.teams 102 =
      some ⟨[[], [], [], [], [], [Cell.num 102], [], [], [], [], [],
        [Cell.num 102]]⟩ ∧
    lookupTeam (pushSADataToTeamSheets_FORCE st7).1.teams 103 =
      some ⟨[[], [], [], [], [], [Cell.num 103], [], [], [], [], [],
        [Cell.num 103]]⟩ := by
  decide

/-- C6. The tracking sentinel is written only after the destination paste
of a row, so an execution that fails after fully processing `k` data rows
and before the paste of data row `k + 1` leaves the tracking cell of
every not-yet-pasted data row (indices `j ≥ k`, sheet row `j + 2`) at its
pre-run value; and whenever such a row would push, a subsequent full run
does push it and sets its sentinel. -/
theorem sa_mark_after_paste_retryable (st : SpreadState) (k j : Nat)
    (hkj : k ≤ j) :
    getCell (pushSADataInterrupted st k).src (j + 2)
        (getOrCreateTrackingColumn st.src (getLastColumn st.src)).1 =
      getCell (getOrCreateTrackingColumn st.src (getLastColumn st.src)).2 (j + 2)
        (getOrCreateTrackingColumn st.src (getLastColumn st.src)).1 ∧
    (j + 1 < getLastRow st.src →
      rowPushes 1 (getOrCreateTrackingColumn st.src (getLastColumn st.src)).1
        (readRow (getOrCreateTrackingColumn st.src (getLastColumn st.src)).2 (j + 2)
          (getOrCreateTrackingColumn st.src (getLastColumn st.src)).1) = true →
      getCell (pushSADataToTeamSheets (pushSADataInterrupted st k)).1.src (j + 2)
        (getOrCreateTrackingColumn st.src (getLastColumn st.src)).1 =
        Cell.str SA_TRACKING_COL) := by
  set tk := (getOrCreateTrackingColumn st.src (getLastColumn st.src)).1 with htkdef
  set src1 := (getOrCreateTrackingColumn st.src (getLastColumn st.src)).2 with hs1def
  have htk : 1 ≤ tk := getOrCreate_pos st.src (getLastColumn st.src)
  by_cases h2 : 2 ≤ getLastRow st.src
  · set lastRow := getLastRow st.src with hlrdef
    set data1 := (readGrid src1 lastRow tk).drop 1 with hddef
    set init : LoopState := ⟨src1, st.teams, 0, 0, 0, []⟩ with hidef
    have hIR := interrupted_run st k h2
    have hIL : interruptedLoop st k = runRows 1 tk 1 (data1.take k) init := rfl
    have hhigh : ∀ c, getCell (interruptedLoop st k).src (j + 2) c =
        getCell src1 (j + 2) c := by
      intro c
      rw [hIL]
      apply runRows_src_cell_high 1 tk htk (data1.take k) 1 init (j + 2) c
      have hlt := List.length_take k data1
      omega
    constructor
    · rw [hIR]
      exact hhigh tk
    · intro hlt hpush
      have hstab := interruptedLoop_stability st k h2
      have h2b : 2 ≤ getLastRow
          (SpreadState.mk (interruptedLoop st k).src (interruptedLoop st k).teams).src := by
        show 2 ≤ getLastRow (interruptedLoop st k).src
        rw [hstab.1]
        exact h2
      rw [hIR, driver_run _ h2b]
      have hDL1 : driverLoop ⟨(interruptedLoop st k).src, (interruptedLoop st k).teams⟩ =
          runRows 1 tk 1
            ((readGrid (interruptedLoop st k).src lastRow tk).drop 1)
            ⟨(interruptedLoop st k).src, (interruptedLoop st k).teams, 0, 0, 0, []⟩ := by
        generalize hF : interruptedLoop st k = F at hstab ⊢
        simp only [driverLoop]
        rw [hstab.2, hstab.1]
      show getCell (driverLoop ⟨(interruptedLoop st k).src, (interruptedLoop st k).teams⟩).src
          (j + 2) tk = Cell.str SA_TRACKING_COL
      rw [hDL1]
      have hd2 : ((readGrid (interruptedLoop st k).src lastRow tk).drop 1)[j]? =
          some (readRow (interruptedLoop st k).src (j + 2) tk) :=
        dropGrid_get _ lastRow tk j (by omega)
      have hrp2 : rowPushes 1 tk (readRow (interruptedLoop st k).src (j + 2) tk) = true := by
        rw [rowPushes_depends 1 tk _ (readRow src1 (j + 2) tk) ?ht ?hr]
        · exact hpush
        case ht =>
          rw [readRow_getD _ _ _ _ _ (by omega : tk - 1 < tk),
            readRow_getD _ _ _ _ _ (by omega : tk - 1 < tk)]
          exact hhigh (tk - 1 + 1)
        case hr =>
          rw [readRow_getD _ _ _ _ _ (by omega : 1 - 1 < tk),
            readRow_getD _ _ _ _ _ (by omega : 1 - 1 < tk)]
          exact hhigh 1
      have hmark := runRows_marks_pushed 1 tk htk
        ((readGrid (interruptedLoop st k).src lastRow tk).drop 1) 1
        ⟨(interruptedLoop st k).src, (interruptedLoop st k).teams, 0, 0, 0, []⟩
        j _ hd2 hrp2
      have h12 : 1 + j + 1 = j + 2 := by omega
      rwa [h12] at hmark
  · have h2' : getLastRow st.src < 2 := by omega
    constructor
    · rw [interrupted_abort st k h2']
      exact (getOrCreate_cell_ne_header st.src (getLastColumn st.src) (j + 2) tk
        (by omega)).symm
    · intro hlt
      omega

/-- C6 witness: for the two-row source `stW` interrupted before its only
data row was pasted, that row is unmarked, and the follow-up run marks
it. -/
theorem sa_mark_after_paste_retryable_witness :
    getCell (pushSADataInterrupted stW 0).src 2
        (getOrCreateTrackingColumn stW.src (getLastColumn stW.src)).1 =
      getCell (getOrCreateTrackingColumn stW.src (getLastColumn stW.src)).2 2
        (getOrCreateTrackingColumn stW.src (getLastColumn stW.src)).1 ∧
    getCell (pushSADataToTeamSheets (pushSADataInterrupted stW 0)).1.src 2
        (getOrCreateTrackingColumn stW.src (getLastColumn stW.src)).1 =
      Cell.str SA_TRACKING_COL := by
  have h := sa_mark_after_paste_retryable stW 0 0 (Nat.le_refl 0)
  exact ⟨h.1, h.2 (by decide) (by decide)⟩
